import Mathlib

/-!
# Blaze: page cache, router, offline worker and version gate

A verification development for these parts of the site:

* `menuPagesCache` (script.js 33-83), the bounded store of fetched HTML
  fragments used by the hash router;
* `loadContent`, `restoreScrollPosition` and `isMenuPage` (script.js 208-400),
  the router;
* the `fetch`, `activate` and `message` listeners of the service worker
  (service-worker.js 1-16, 81-239);
* the version gate `version.js`;
* `preloadAssets` (script.js 123-177) and the category lists of
  ajax-navigation.js, menu-transitions.js and dissolve-animation.js.

Object model.  `_cache` is a plain JavaScript object whose property names are
route tokens and whose values are the HTML strings produced by
`response.text()`.  It is represented by the list of its own properties in
creation order.  An object literal inherits from `Object.prototype`: a read
`o[k]` and the test `k in o` also see the inherited names, and assigning a
string to `o['__proto__']` stores nothing.  The methods of `menuPagesCache`
accept every string as key, so the model of `_cache` follows these rules; the
call sites in script.js pass one of the eleven menu categories
(`preloadMenuPages`, and `loadContent` behind `isMenuPage(hash)`).
`_accessOrder` is a JavaScript array of keys, represented by a list.  The table
`routes` is read with the location hash, which the visitor controls, so reads
of `routes` also see the names inherited from `Object.prototype`.
-/

namespace Blaze

/-- A plain object with string values: its own properties, oldest first. -/
abbrev JSObject := List (String × String)

namespace JSObject

/-- Read of the own property `k`; `none` when the object has no own property of
that name.  For a `Storage` object this is `getItem(k)`, with `none` for
`null`. -/
def getProp (o : JSObject) (k : String) : Option String :=
  match o with
  | [] => none
  | (k', v) :: rest => if k' = k then some v else getProp rest k

/-- The test for an own property `k` (`Object.hasOwn(o, k)`). -/
def hasProp (o : JSObject) (k : String) : Bool :=
  (getProp o k).isSome

/-- Assignment `o[k] = v`: an existing property keeps its place, a new one is
added at the end. -/
def setProp (o : JSObject) (k v : String) : JSObject :=
  match o with
  | [] => [(k, v)]
  | (k', v') :: rest => if k' = k then (k, v) :: rest else (k', v') :: setProp rest k v

/-- Removal `delete o[k]`. -/
def deleteProp (o : JSObject) (k : String) : JSObject :=
  o.filter (fun p => decide (p.1 ≠ k))

/-- The own property names of the object, in creation order; for names that
are not array indices this is the order of `Object.keys(o)`. -/
def keys (o : JSObject) : List String :=
  o.map Prod.fst

end JSObject

/-- The property names that an object literal inherits from `Object.prototype`;
a read `o[name]` of one of them yields a function or an object, not
`undefined`, unless an own property of that name exists. -/
def objectPrototypeNames : List String :=
  ["constructor", "hasOwnProperty", "isPrototypeOf", "propertyIsEnumerable",
   "toLocaleString", "toString", "valueOf", "__defineGetter__", "__defineSetter__",
   "__lookupGetter__", "__lookupSetter__", "__proto__"]

/-- A value read from an object literal whose own properties hold strings: the
string of an own property, or the value inherited under a name of
`Object.prototype` (a function; the object `Object.prototype` itself for
"__proto__"). -/
inductive JSValue where
  | str (s : String)
  | inherited (name : String)
deriving DecidableEq, Repr

/-- Truthiness of a value read from an object literal: the empty string is
falsy, functions and objects are truthy. -/
def JSValue.truthy : JSValue → Bool
  | .str s => decide (s ≠ "")
  | .inherited _ => true

/-- The text `String(v)` of a value, as stored by an assignment to `innerHTML`:
a function prints as its native source text, `Object.prototype` as
"[object Object]". -/
def JSValue.toText : JSValue → String
  | .str s => s
  | .inherited name =>
    if name = "__proto__" then "[object Object]"
    else if name = "constructor" then "function Object() \x7b [native code] \x7d"
    else "function " ++ name ++ "() \x7b [native code] \x7d"

namespace JSObject

/-- The read `o[k]` on an object literal: the own property when there is one,
else the value inherited from `Object.prototype`; `none` stands for
`undefined`. -/
def lookup (o : JSObject) (k : String) : Option JSValue :=
  match o.getProp k with
  | some v => some (.str v)
  | none => if k ∈ objectPrototypeNames then some (.inherited k) else none

/-- The test `k in o` on an object literal: own and inherited names. -/
def hasIn (o : JSObject) (k : String) : Bool :=
  o.hasProp k || decide (k ∈ objectPrototypeNames)

/-- The assignment `o[k] = v` of a string on an object literal.  The name
"__proto__" is an accessor of `Object.prototype` whose setter ignores a value
that is neither an object nor `null`, so nothing is stored; the other inherited
names are writable data properties, and the assignment creates an own
property. -/
def assign (o : JSObject) (k v : String) : JSObject :=
  if k = "__proto__" then o else o.setProp k v

end JSObject

/-- Array method `indexOf`: position of the first occurrence, or `-1`. -/
def arrayIndexOf (a : List String) (x : String) : Int :=
  if x ∈ a then (a.indexOf x : Nat) else -1

/-- The object `menuPagesCache`: its three data fields. -/
structure PageCache where
  _cache : JSObject
  _maxSize : Nat
  _accessOrder : List String
deriving DecidableEq, Repr

namespace PageCache

/-- Method `_updateAccessOrder` (script.js 64-70): when the key occurs in
`_accessOrder`, its first occurrence is spliced out and the key is pushed at
the end. -/
def _updateAccessOrder (c : PageCache) (key : String) : PageCache :=
  let index := arrayIndexOf c._accessOrder key
  if index > -1 then
    { c with _accessOrder := c._accessOrder.eraseIdx index.toNat ++ [key] }
  else c

/-- Method `get` (script.js 39-46).  The guard `if (this._cache[key])` is a
truthiness test: it succeeds for a stored non-empty string and for a value
inherited from `Object.prototype`, and fails for `undefined` and for the empty
string.  `none` stands for `null`. -/
def get (c : PageCache) (key : String) : Option JSValue × PageCache :=
  match c._cache.lookup key with
  | some v =>
    if v.truthy then
      let c1 := c._updateAccessOrder key
      (c1._cache.lookup key, c1)
    else (none, c)
  | none => (none, c)

/-- Method `set` (script.js 49-61).  `shift()` on an empty array yields
`undefined`, and `delete this._cache[undefined]` removes the property named
"undefined". -/
def set (c : PageCache) (key value : String) : PageCache :=
  let c1 : PageCache :=
    if c._accessOrder.length ≥ c._maxSize then
      match c._accessOrder with
      | [] => { c with _cache := c._cache.deleteProp "undefined" }
      | oldest :: rest =>
        { c with _cache := c._cache.deleteProp oldest, _accessOrder := rest }
    else c
  { c1 with _cache := c1._cache.assign key value,
            _accessOrder := c1._accessOrder ++ [key] }

/-- Method `has` (script.js 73-75): the result of `key in this._cache`, which
also holds for the names inherited from `Object.prototype`, and the object,
which the method does not write to. -/
def has (c : PageCache) (key : String) : Bool × PageCache :=
  (c._cache.hasIn key, c)

/-- Method `clear` (script.js 78-82). -/
def clear (c : PageCache) : PageCache :=
  { c with _cache := [], _accessOrder := [] }

end PageCache

/-- The cache as script.js creates it (lines 33-36). -/
def menuPagesCache : PageCache :=
  { _cache := [], _maxSize := 15, _accessOrder := [] }

/-- The same object with another value of `_maxSize`. -/
def withMaxSize (m : Nat) : PageCache :=
  { menuPagesCache with _maxSize := m }

/-- One call of a public method of the cache. -/
inductive Call where
  | get (key : String)
  | set (key value : String)
  | has (key : String)
  | clear
deriving DecidableEq, Repr

/-- The state after one call. -/
def step (c : PageCache) : Call → PageCache
  | .get key => (c.get key).2
  | .set key value => c.set key value
  | .has key => (c.has key).2
  | .clear => c.clear

/-- The state after a sequence of calls, first call first. -/
def run (c : PageCache) (calls : List Call) : PageCache :=
  calls.foldl step c

/-- The calls `set(k1,v1) ... set(kn,vn)`. -/
def setCalls (kvs : List (String × String)) : List Call :=
  kvs.map (fun p => Call.set p.1 p.2)

/-- States reachable from the cache as created. -/
def Reachable (s : PageCache) : Prop :=
  ∃ calls : List Call, run menuPagesCache calls = s

/-- The invariant behind the size bound: `_maxSize` is `m`, the property names
of `_cache` are pairwise distinct and all occur in `_accessOrder`, and
`_accessOrder` has at most `m` elements. -/
def Inv (m : Nat) (s : PageCache) : Prop :=
  s._maxSize = m ∧ s._cache.keys.Nodup ∧
    (∀ k ∈ s._cache.keys, k ∈ s._accessOrder) ∧ s._accessOrder.length ≤ m

/-- Follows the words of the specification, not the code: of the keys touched by
a sequence of `set` calls, the `m` distinct keys touched most recently, from
least to most recently touched.  `List.dedup` keeps the last occurrence of
every key. -/
def specMostRecentKeys (m : Nat) (touched : List String) : List String :=
  touched.dedup.drop (touched.dedup.length - m)

/-- Sixteen pages with pairwise-distinct keys. -/
def sixteenPages : List (String × String) :=
  [("k1", "p1"), ("k2", "p2"), ("k3", "p3"), ("k4", "p4"), ("k5", "p5"), ("k6", "p6"), ("k7", "p7"), ("k8", "p8"), ("k9", "p9"), ("k10", "p10"), ("k11", "p11"), ("k12", "p12"), ("k13", "p13"), ("k14", "p14"), ("k15", "p15"), ("k16", "p16")]

/-- Fifteen pages with pairwise-distinct keys: they fill `menuPagesCache`. -/
def fifteenPages : List (String × String) :=
  [("k1", "p1"), ("k2", "p2"), ("k3", "p3"), ("k4", "p4"), ("k5", "p5"), ("k6", "p6"), ("k7", "p7"), ("k8", "p8"), ("k9", "p9"), ("k10", "p10"), ("k11", "p11"), ("k12", "p12"), ("k13", "p13"), ("k14", "p14"), ("k15", "p15")]

/-- Key "a" is set twice and read after "b" was set; thirteen further keys are
set afterwards. -/
def readThenFill : List Call :=
  [.set "a" "A", .set "a" "A", .set "b" "B", .get "a", .set "k1" "p1", .set "k2" "p2", .set "k3" "p3", .set "k4" "p4", .set "k5" "p5", .set "k6" "p6", .set "k7" "p7", .set "k8" "p8", .set "k9" "p9", .set "k10" "p10", .set "k11" "p11", .set "k12" "p12", .set "k13" "p13"]

/-- The fifteen pages k1..k15 followed by a page under the key "__proto__":
sixteen pairwise-distinct keys. -/
def pagesThenProto : List (String × String) :=
  fifteenPages ++ [("__proto__", "p16")]

/-- Fifteen pages with pairwise-distinct keys, the second of them "toString". -/
def pagesWithInheritedName : List (String × String) :=
  [("k1", "p1"), ("toString", "p2"), ("k3", "p3"), ("k4", "p4"), ("k5", "p5"), ("k6", "p6"), ("k7", "p7"), ("k8", "p8"), ("k9", "p9"), ("k10", "p10"), ("k11", "p11"), ("k12", "p12"), ("k13", "p13"), ("k14", "p14"), ("k15", "p15")]

/-- Key "constructor" is set twice and fourteen further keys are set; the
fourteenth of these `set` calls evicts "constructor". -/
def constructorTwiceThenFill : List Call :=
  [.set "constructor" "x", .set "constructor" "x", .set "k1" "p1", .set "k2" "p2", .set "k3" "p3", .set "k4" "p4", .set "k5" "p5", .set "k6" "p6", .set "k7" "p7", .set "k8" "p8", .set "k9" "p9", .set "k10" "p10", .set "k11" "p11", .set "k12" "p12", .set "k13" "p13", .set "k14" "p14"]

/-! ## The router: `loadContent` (script.js 208-400)

`loadContent` runs synchronously up to the point where it either finishes
(missing app element, page not found, cache hit) or issues a `fetch`; the
promise callbacks run later, when the fetch settles.  The two parts are
separate functions here, so that other events can be placed between them.
Visual style updates, the loading indicator and the helper calls
(`setActiveLink`, `fixSvgPaths`, ...) are not part of the state. -/

/-- The table `routes` (script.js 5-27): its own properties. -/
def routes : JSObject :=
  [("home", "pages/home.html"),
   ("hours-location", "pages/hours-location.html"),
   ("about", "pages/about.html"),
   ("order-online", "pages/order-online.html"),
   ("contact", "pages/contact.html"),
   ("menu", "pages/menu.html"),
   ("gourmet-burgers", "pages/gourmet-burgers.html"),
   ("wraps", "pages/wraps.html"),
   ("sides", "pages/sides.html"),
   ("pasta", "pages/pasta.html"),
   ("main-course", "pages/main-course.html"),
   ("chinese", "pages/chinese.html"),
   ("og-momos", "pages/og-momos.html"),
   ("cold-beverages", "pages/cold-beverages.html"),
   ("hot-beverages", "pages/hot-beverages.html"),
   ("desserts", "pages/desserts.html"),
   ("indian", "pages/indian.html")]

/-- A value read from `routes`: the path of an own property, or the value
inherited under a name of `Object.prototype`. -/
inductive RouteValue where
  | path (p : String)
  | inherited (name : String)
deriving DecidableEq, Repr

/-- Truthiness of a value read from `routes`. -/
def RouteValue.truthy : RouteValue → Bool
  | .path p => decide (p ≠ "")
  | .inherited _ => true

/-- The read `routes[hash]`; `none` stands for `undefined`. -/
def routesGet (hash : String) : Option RouteValue :=
  match routes.getProp hash with
  | some p => some (.path p)
  | none => if hash ∈ objectPrototypeNames then some (.inherited hash) else none

/-- The expression `routes[hash] || routes['home']` (script.js 240). -/
def resolvePage (hash : String) : Option RouteValue :=
  match routesGet hash with
  | some v => if v.truthy then some v else routesGet "home"
  | none => routesGet "home"

/-- The array `menuPages` of `isMenuPage` (script.js 394-398). -/
def menuPages : List String :=
  ["gourmet-burgers", "wraps", "sides", "pasta", "main-course",
   "chinese", "og-momos", "cold-beverages", "hot-beverages",
   "desserts", "indian"]

/-- Function `isMenuPage` (script.js 393-400). -/
def isMenuPage (hash : String) : Bool :=
  decide (hash ∈ menuPages)

/-- A scroll request made by `restoreScrollPosition`: `window.scrollTo(0, y)` at
once, or `window.scrollTo(0, parseInt(savedPosition))` from a timer. -/
inductive ScrollEffect where
  | scrollTo (y : Nat)
  | scrollToParsedAfter (ms : Nat) (savedPosition : String)
deriving DecidableEq, Repr

/-- Function `restoreScrollPosition` (script.js 377-390).  `sessionStorage` is its
key/value content; `none` means that the window is not scrolled. -/
def restoreScrollPosition (sessionStorage : JSObject) (hash : String) :
    Option ScrollEffect :=
  if hash = "home" then some (.scrollTo 0)
  else
    match sessionStorage.getProp ("scrollPos_" ++ hash) with
    | some savedPosition =>
      if savedPosition ≠ "" then some (.scrollToParsedAfter 50 savedPosition) else none
    | none => none

/-- The element with id `app`: `dataset.currentPage` and `innerHTML`. -/
structure AppElement where
  currentPage : Option String
  innerHTML : String
deriving DecidableEq, Repr

/-- The page-side state that `loadContent` reads and writes.  `cacheLog` and
`scrollLog` are ghost fields: they record the calls made on `menuPagesCache`
and the scroll requests issued, oldest first. -/
structure Browser where
  locationHash : String
  app : Option AppElement
  pageYOffset : Nat
  sessionStorage : JSObject
  cache : PageCache
  cacheLog : List Call
  scrollLog : List ScrollEffect
deriving DecidableEq, Repr

/-- The variables captured by the promise callbacks of `loadContent`. -/
structure Pending where
  hash : String
  page : RouteValue
deriving DecidableEq, Repr

/-- How the `fetch` of `loadContent` settles: rejected by the network, aborted
by the 8000 ms timer, or resolved with a response (`ok` flag and body text). -/
inductive FetchOutcome where
  | networkError
  | timeoutAbort
  | response (ok : Bool) (body : String)
deriving DecidableEq, Repr

/-- The markup shown when no page is found (script.js 246). -/
def pageNotFoundHTML : String :=
  "<div style=\"text-align:center;padding:2rem;\"><p>Page not found. Please try again.</p><button onclick=\"window.location.hash=\x27#home\x27\" style=\"padding:0.5rem 1rem;background:#9D1C20;color:white;border:none;border-radius:4px;cursor:pointer;\">Return Home</button></div>"

/-- The markup shown when the fetch fails (script.js 369). -/
def unableToLoadHTML : String :=
  "<div style=\"text-align:center;padding:2rem;\"><p>Unable to load content. Please try again.</p><button onclick=\"window.location.hash=\x27#home\x27\" style=\"padding:0.5rem 1rem;background:#9D1C20;color:white;border:none;border-radius:4px;cursor:pointer;\">Return Home</button></div>"

/-- The route token `loadContent` works with: the location hash without its
first character, or "home" when that is empty (script.js 209-215). -/
def requestedHash (locationHash : String) : String :=
  if locationHash.drop 1 = "" then "home" else locationHash.drop 1

/-- Function `loadContent` (script.js 208-300), the synchronous part.  The
second component is `some` exactly when a `fetch` was issued.  The statements
of the cache-hit branch are taken not to throw, so the `catch` of its `try`,
which would fall through to the fetch, is not entered.  Assigning `null` to
`innerHTML` stores the empty string, assigning another value stores its
text. -/
def loadContent (s : Browser) : Browser × Option Pending :=
  let hash := requestedHash s.locationHash
  let s1 : Browser :=
    if s.locationHash.drop 1 = "" then { s with locationHash := "#home" } else s
  match s1.app with
  | none => (s1, none)
  | some appElement =>
    let storage : JSObject :=
      match appElement.currentPage with
      | some currentPage =>
        if currentPage ≠ "" then
          s1.sessionStorage.setProp ("scrollPos_" ++ currentPage) (toString s1.pageYOffset)
        else s1.sessionStorage
      | none => s1.sessionStorage
    let s2 : Browser :=
      { s1 with sessionStorage := storage,
                app := some { appElement with currentPage := some hash } }
    match resolvePage hash with
    | none =>
      ({ s2 with app := some { currentPage := some hash, innerHTML := pageNotFoundHTML } },
        none)
    | some page =>
      if isMenuPage hash then
        let r := s2.cache.has hash
        if r.1 then
          let g := r.2.get hash
          ({ s2 with cache := g.2,
                     cacheLog := s2.cacheLog ++ [Call.has hash, Call.get hash],
                     app := some { currentPage := some hash, innerHTML := (g.1.map JSValue.toText).getD "" },
                     scrollLog := s2.scrollLog ++ (restoreScrollPosition storage hash).toList },
            none)
        else
          ({ s2 with cache := r.2, cacheLog := s2.cacheLog ++ [Call.has hash] },
            some { hash := hash, page := page })
      else (s2, some { hash := hash, page := page })

/-- The promise callbacks of `loadContent` (script.js 306-371), run on the state
in which the fetch settles: the two `then` callbacks for a response with
`ok`, the `catch` callback otherwise. -/
def loadContentSettled (s : Browser) (p : Pending) (o : FetchOutcome) : Browser :=
  match o with
  | .response true html =>
    let s1 : Browser :=
      if isMenuPage p.hash then
        { s with cache := s.cache.set p.hash html,
                 cacheLog := s.cacheLog ++ [Call.set p.hash html] }
      else s
    { s1 with app := s1.app.map (fun a => { a with innerHTML := html }),
              scrollLog := s1.scrollLog ++ (restoreScrollPosition s1.sessionStorage p.hash).toList }
  | _ => { s with app := s.app.map (fun a => { a with innerHTML := unableToLoadHTML }) }

/-- A fetch outcome that takes the `catch` path. -/
def FetchOutcome.failed : FetchOutcome → Bool
  | .response true _ => false
  | _ => true

/-- A page showing "home" at scroll offset 120 whose location hash was just
changed to `locationHash`. -/
def homeShown (locationHash : String) : Browser :=
  { locationHash := locationHash,
    app := some { currentPage := some "home", innerHTML := "<h1>Home</h1>" },
    pageYOffset := 120, sessionStorage := [], cache := menuPagesCache,
    cacheLog := [], scrollLog := [] }

/-- The state after `loadContent` ran for the hash `#about` on the page showing
"home": the fetch of `pages/about.html` is in flight. -/
def aboutRequested : Browser :=
  (loadContent (homeShown "#about")).1

/-- The state after the hash then changed to `#contact` and `loadContent` ran
again: the fetches of `pages/about.html` and `pages/contact.html` are both in
flight. -/
def contactRequested : Browser :=
  (loadContent { aboutRequested with locationHash := "#contact" }).1

/-! ## The service worker: the `fetch` handler (service-worker.js 170-239)

The handler is modelled as a function of the worker state, the request and the
way the network fetch of that request settles.  Its result is what was passed
to `event.respondWith` once all promises have settled, and the cache storage
after the background `cache.put`. -/

/-- String method `includes`. -/
def includes (s sub : String) : Bool :=
  s.data.tails.any (fun t => sub.data.isPrefixOf t)

/-- String method `endsWith`; the test `/\.(jpg|...)$/` is a disjunction of
such tests. -/
def endsWith (s suffix : String) : Bool :=
  suffix.data.isSuffixOf s.data

/-- A response: status, headers and body text. -/
structure Response where
  status : Nat
  headers : List (String × String)
  body : String
deriving DecidableEq, Repr

/-- A parsed URL, `new URL(...)`: the components the handler reads.  `hash` is
the fragment with its `#`, `search` the query with its `?`, each empty when
absent. -/
structure URL where
  origin : String
  pathname : String
  search : String
  hash : String
deriving DecidableEq, Repr

/-- The serialised URL, which is `request.url`. -/
def URL.href (u : URL) : String :=
  u.origin ++ u.pathname ++ u.search ++ u.hash

/-- The serialised URL without its fragment, by which the Cache API matches. -/
def URL.cacheKey (u : URL) : String :=
  u.origin ++ u.pathname ++ u.search

/-- A request as the handler sees it. -/
structure Request where
  method : String
  mode : String
  url : URL
deriving DecidableEq, Repr

/-- One named cache: stored responses by request URL. -/
abbrev Cache := List (String × Response)

/-- The cache storage `caches`: the named caches in creation order. -/
abbrev CacheStorage := List (String × Cache)

/-- Method `cache.match`. -/
def cacheMatch (c : Cache) (key : String) : Option Response :=
  match c with
  | [] => none
  | (k, r) :: rest => if k = key then some r else cacheMatch rest key

/-- Method `caches.match`: the first match over the caches in creation order;
`none` stands for `undefined`. -/
def cachesMatch (cs : CacheStorage) (key : String) : Option Response :=
  match cs with
  | [] => none
  | (_, c) :: rest =>
    match cacheMatch c key with
    | some r => some r
    | none => cachesMatch rest key

/-- Method `cache.put`: replaces the entry of the request. -/
def cachePut (c : Cache) (key : String) (r : Response) : Cache :=
  c.filter (fun e => decide (e.1 ≠ key)) ++ [(key, r)]

/-- The code `caches.open(name).then(cache => cache.put(request, r))`: the cache
is created when it does not exist. -/
def openAndPut (cs : CacheStorage) (name key : String) (r : Response) : CacheStorage :=
  match cs with
  | [] => [(name, [(key, r)])]
  | (n, c) :: rest =>
    if n = name then (n, cachePut c key r) :: rest
    else (n, c) :: openAndPut rest name key r

/-- The worker state the handler reads: `CACHE_NAME`, `location.origin`, the
directory URL of the worker script, against which `./index.html` is resolved,
and the cache storage. -/
structure ServiceWorker where
  CACHE_NAME : String
  locationOrigin : String
  baseURL : String
  caches : CacheStorage
deriving DecidableEq, Repr

/-- How `fetch(event.request)` settles. -/
inductive NetworkResult where
  | rejected
  | resolved (networkResponse : Response)
deriving DecidableEq, Repr

/-- The outcome of the handler: `respondWith` is `none` when `event.respondWith`
was not called, `some none` when its promise resolved to `undefined`, and
`some (some r)` when it resolved to the response `r`. -/
structure FetchHandled where
  respondWith : Option (Option Response)
  caches : CacheStorage
deriving DecidableEq, Repr

/-- The placeholder built at service-worker.js 219-225. -/
def transparentPlaceholder : Response :=
  { status := 200,
    headers := [("Content-Type", "image/svg+xml"), ("Cache-Control", "no-store")],
    body := "" }

/-- The test `event.request.url.match(/\.(jpg|jpeg|png|gif|svg)$/)`. -/
def isImageURL (href : String) : Bool :=
  [".jpg", ".jpeg", ".png", ".gif", ".svg"].any (fun ext => endsWith href ext)

/-- The `fetch` event listener (service-worker.js 171-239). -/
def onFetch (w : ServiceWorker) (request : Request) (network : NetworkResult) :
    FetchHandled :=
  if request.method ≠ "GET" then { respondWith := none, caches := w.caches }
  else if request.url.origin ≠ w.locationOrigin then
    { respondWith := none, caches := w.caches }
  else
    let isVersionedRequest : Bool :=
      decide (request.url.search ≠ "") && includes request.url.search "v="
    if request.mode = "navigate" then
      match network with
      | .resolved networkResponse =>
        { respondWith := some (some networkResponse), caches := w.caches }
      | .rejected =>
        { respondWith := some (cachesMatch w.caches (w.baseURL ++ "index.html")),
          caches := w.caches }
    else
      let cachedResponse := cachesMatch w.caches request.url.cacheKey
      let fetchPromise : Option Response × CacheStorage :=
        match network with
        | .resolved networkResponse =>
          if networkResponse.status = 200 then
            (some networkResponse,
              openAndPut w.caches w.CACHE_NAME request.url.cacheKey networkResponse)
          else (some networkResponse, w.caches)
        | .rejected =>
          match cachedResponse with
          | none =>
            if includes request.url.href ".html" then
              (cachesMatch w.caches (w.baseURL ++ "index.html"), w.caches)
            else if isImageURL request.url.href then (some transparentPlaceholder, w.caches)
            else (none, w.caches)
          | some _ => (none, w.caches)
      if isVersionedRequest || cachedResponse.isNone then
        { respondWith := some fetchPromise.1, caches := fetchPromise.2 }
      else { respondWith := some cachedResponse, caches := fetchPromise.2 }

/-- The fallback document as stored by the install step. -/
def indexDocument : Response :=
  { status := 200, headers := [("Content-Type", "text/html")], body := "<title>Blaze</title>" }

/-- A worker at `https://blaze.example/` whose current cache holds the fallback
document and one stylesheet fetched with a version query. -/
def installedWorker : ServiceWorker :=
  { CACHE_NAME := "blaze-restaurant-cache-v4.20",
    locationOrigin := "https://blaze.example",
    baseURL := "https://blaze.example/",
    caches :=
      [("blaze-restaurant-cache-v4.20",
        [("https://blaze.example/index.html", indexDocument),
         ("https://blaze.example/styles.css?v=4.19",
           { status := 200, headers := [("Content-Type", "text/css")], body := "old" }),
         ("https://blaze.example/script.js",
           { status := 200, headers := [("Content-Type", "text/javascript")],
             body := "old" })])] }

/-- The same worker with an empty persistent store. -/
def emptyStoreWorker : ServiceWorker :=
  { installedWorker with caches := [] }

/-- A same-origin GET request. -/
def getRequest (mode pathname search : String) : Request :=
  { method := "GET", mode := mode,
    url := { origin := "https://blaze.example", pathname := pathname, search := search,
             hash := "" } }

/-- A call on the cache storage made by the `fetch` listener:
`caches.match(event.request)`, `caches.match('./index.html')`, and
`caches.open(name)` followed by `cache.put(event.request, ...)`. -/
inductive CacheOp where
  | matchRequest (key : String)
  | matchIndex
  | openPut (name key : String)
deriving DecidableEq, Repr

/-- The calls on the cache storage that the `fetch` listener makes
(service-worker.js 171-239), in the order of the source; the same case
analysis as `onFetch`. -/
def onFetchCacheOps (w : ServiceWorker) (request : Request) (network : NetworkResult) :
    List CacheOp :=
  if request.method ≠ "GET" then []
  else if request.url.origin ≠ w.locationOrigin then []
  else if request.mode = "navigate" then
    match network with
    | .resolved _ => []
    | .rejected => [CacheOp.matchIndex]
  else
    CacheOp.matchRequest request.url.cacheKey ::
      (match network with
        | .resolved networkResponse =>
          if networkResponse.status = 200 then
            [CacheOp.openPut w.CACHE_NAME request.url.cacheKey]
          else []
        | .rejected =>
          match cachesMatch w.caches request.url.cacheKey with
          | none => if includes request.url.href ".html" then [CacheOp.matchIndex] else []
          | some _ => [])

/-! ## The service worker: activation and version update
(service-worker.js 1-16, 81-168) -/

/-- String method `startsWith`. -/
def startsWith (s start : String) : Bool :=
  start.data.isPrefixOf s.data

/-- The literal 'blaze-restaurant-cache-' tested by `startsWith` in the
`activate` listener and in `clearCachesAndRecache`. -/
def appCacheStem : String := "blaze-restaurant-cache-"

/-- The array `CORE_ASSETS` (service-worker.js 6-16). -/
def CORE_ASSETS : List String :=
  ["./", "./index.html", "./styles/main.css", "./scripts/main.js", "./version.js",
   "./styles.css", "./script.js", "./assets/Blaze PNG 3.svg", "./manifest.json"]

/-- The template `blaze-restaurant-cache-v${CACHE_VERSION}` (lines 3 and 91). -/
def cacheNameOf (cacheVersion : String) : String :=
  "blaze-restaurant-cache-v" ++ cacheVersion

/-- The `activate` listener (service-worker.js 151-168): every cache whose name
starts with the stem and is not `CACHE_NAME` is deleted.  `clients.claim()`
does not touch the state modelled here. -/
def onActivate (w : ServiceWorker) : ServiceWorker :=
  { w with caches :=
      w.caches.filter (fun e =>
        !(startsWith e.1 appCacheStem && decide (e.1 ≠ w.CACHE_NAME))) }

/-- A relative URL of the form `./path` resolved against the directory of the
worker script; a space is percent-encoded. -/
def resolveURL (w : ServiceWorker) (relative : String) : String :=
  w.baseURL ++
    String.join ((relative.drop 2).data.map
      (fun c => if c = ' ' then "%20" else String.singleton c))

/-- The flag `response.ok`. -/
def Response.ok (r : Response) : Bool :=
  decide (200 ≤ r.status) && decide (r.status ≤ 299)

/-- Method `caches.open`: the cache is created, empty, when it does not exist. -/
def cachesOpen (cs : CacheStorage) (name : String) : CacheStorage :=
  match cs with
  | [] => [(name, [])]
  | (n, c) :: rest => if n = name then (n, c) :: rest else (n, c) :: cachesOpen rest name

/-- The fetches of `cache.addAll(urls)`: `some` of the fetched entries when every
fetch resolves with an `ok` response, `none` (the promise rejects) otherwise.
`network url` is how the fetch of `url` settles, `none` for a rejection. -/
def addAllFetch (network : String → Option Response) (urls : List String) :
    Option (List (String × Response)) :=
  match urls with
  | [] => some []
  | url :: rest =>
    match network url with
    | some r =>
      if r.ok then
        match addAllFetch network rest with
        | some entries => some ((url, r) :: entries)
        | none => none
      else none
    | none => none

/-- What handling a message left behind: the globals `CACHE_VERSION` and
`CACHE_NAME` (the latter inside `worker`), the cache storage, the value read
as `oldVersion`, whether `self.skipWaiting()` was called, and the messages
posted to clients, as pairs of client and message object. -/
structure MessageHandled where
  CACHE_VERSION : String
  worker : ServiceWorker
  oldVersion : Option String
  skipWaiting : Bool
  posted : List (String × JSObject)
deriving DecidableEq, Repr

/-- Function `clearCachesAndRecache` (service-worker.js 99-131).  `clients` is
the result of `self.clients.matchAll()`.  When `cache.addAll` rejects, the
`catch` block only logs: the caches stay deleted and the new cache stays
opened and empty. -/
def clearCachesAndRecache (cacheVersion : String) (w : ServiceWorker)
    (network : String → Option Response) (clients : List String) :
    ServiceWorker × Bool × List (String × JSObject) :=
  let cleared : CacheStorage :=
    w.caches.filter (fun e => !(startsWith e.1 appCacheStem))
  let opened : CacheStorage := cachesOpen cleared w.CACHE_NAME
  match addAllFetch network (CORE_ASSETS.map (resolveURL w)) with
  | none => ({ w with caches := opened }, false, [])
  | some entries =>
    ({ w with caches :=
        entries.foldl (fun cs e => openAndPut cs w.CACHE_NAME e.1 e.2) opened },
      true,
      clients.map (fun client =>
        (client, [("type", "CACHE_UPDATED"), ("version", cacheVersion)])))

/-- The `message` listener (service-worker.js 82-96).  `data` is `event.data`,
a plain object of string fields or nothing; an absent `version` is rendered
by the template as "undefined". -/
def onMessage (cacheVersion : String) (w : ServiceWorker) (data : Option JSObject)
    (network : String → Option Response) (clients : List String) : MessageHandled :=
  match data with
  | none =>
    { CACHE_VERSION := cacheVersion, worker := w, oldVersion := none,
      skipWaiting := false, posted := [] }
  | some d =>
    if d.getProp "type" = some "VERSION_UPDATE" then
      let newVersion := (d.getProp "version").getD "undefined"
      let oldVersion := d.getProp "previousVersion"
      let w1 : ServiceWorker := { w with CACHE_NAME := cacheNameOf newVersion }
      let r := clearCachesAndRecache newVersion w1 network clients
      { CACHE_VERSION := newVersion, worker := r.1, oldVersion := oldVersion,
        skipWaiting := r.2.1, posted := r.2.2 }
    else
      { CACHE_VERSION := cacheVersion, worker := w, oldVersion := none,
        skipWaiting := false, posted := [] }

/-- A network on which every fetch of a core asset resolves with status 200. -/
def onlineNetwork (url : String) : Option Response :=
  some { status := 200, headers := [], body := url }

/-- A worker with the caches of two older versions and a cache of another
application. -/
def staleWorker : ServiceWorker :=
  { CACHE_NAME := "blaze-restaurant-cache-v4.20",
    locationOrigin := "https://blaze.example",
    baseURL := "https://blaze.example/",
    caches :=
      [("blaze-restaurant-cache-v4.18", []),
       ("other-app-cache", [("https://blaze.example/x", indexDocument)]),
       ("blaze-restaurant-cache-v4.20",
        [("https://blaze.example/index.html", indexDocument)]),
       ("blaze-restaurant-cache-v4.19", [])] }

/-! ## The version gate: `version.js`

`localStorage` and `sessionStorage` are represented by their key/value
contents.  A `Storage` object exposes a stored key as an own property only when
no property of that name exists on its prototype chain, so
`Object.keys(storage)` lists the stored keys that are not the name of a
property of `Storage.prototype` or `Object.prototype`; `getItem`, `setItem` and
`removeItem` work on every key.  The scripts of the site write 'blazeVersion'
to `localStorage` and 'currentCategoryIndex' and 'scrollPos_' followed by a
token to `sessionStorage`; other keys can come from other scripts of the same
origin. -/

/-- The constant `APP_VERSION` (version.js 2). -/
def APP_VERSION : String := "4.20"

/-- What `version.js` reads: the two stores and whether
`'serviceWorker' in navigator && navigator.serviceWorker.controller` holds. -/
structure PageStores where
  localStorage : JSObject
  sessionStorage : JSObject
  controller : Bool
deriving DecidableEq, Repr

/-- What `version.js` leaves behind: the two stores and the messages posted to
the controller, each a plain object of string fields. -/
structure VersionRun where
  localStorage : JSObject
  sessionStorage : JSObject
  posted : List JSObject
deriving DecidableEq, Repr

/-- Truthiness of the result of `getItem`: `null` and the empty string are
falsy. -/
def truthyItem (item : Option String) : Bool :=
  match item with
  | some t => decide (t ≠ "")
  | none => false

/-- The names of the properties on the prototype chain of a `Storage` object:
those of `Storage.prototype` and those of `Object.prototype`. -/
def storagePrototypeNames : List String :=
  ["length", "key", "getItem", "setItem", "removeItem", "clear"] ++ objectPrototypeNames

/-- The result of `Object.keys(storage)`: the stored keys that no property of
the prototype chain shadows. -/
def storageKeys (storage : JSObject) : List String :=
  (JSObject.keys storage).filter (fun key => decide (key ∉ storagePrototypeNames))

/-- The script `version.js` (lines 6-33). -/
def versionScript (s : PageStores) : VersionRun :=
  let previousVersion := s.localStorage.getProp "blazeVersion"
  if !(truthyItem previousVersion) || decide (previousVersion ≠ some APP_VERSION) then
    let stored := s.localStorage.setProp "blazeVersion" APP_VERSION
    if truthyItem previousVersion && decide (previousVersion ≠ some APP_VERSION) then
      { localStorage :=
          (storageKeys stored).foldl
            (fun st key => if key ≠ "blazeVersion" then st.deleteProp key else st) stored,
        sessionStorage :=
          (storageKeys s.sessionStorage).foldl (fun st key => st.deleteProp key)
            s.sessionStorage,
        posted :=
          if s.controller then [[("type", "VERSION_UPDATE"), ("version", APP_VERSION)]]
          else [] }
    else { localStorage := stored, sessionStorage := s.sessionStorage, posted := [] }
  else { localStorage := s.localStorage, sessionStorage := s.sessionStorage, posted := [] }

/-- A page last loaded under version 4.19, with a saved scroll position. -/
def upgradedPage (controller : Bool) : PageStores :=
  { localStorage := [("currentTheme", "dark"), ("blazeVersion", "4.19")],
    sessionStorage := [("scrollPos_home", "120")],
    controller := controller }

/-- A page last loaded under version 4.19 whose stores also hold the keys
"length" and "key", names of properties of `Storage.prototype`. -/
def shadowedKeysPage : PageStores :=
  { localStorage := [("blazeVersion", "4.19"), ("length", "3"), ("currentTheme", "dark")],
    sessionStorage := [("key", "k"), ("scrollPos_home", "120")],
    controller := true }

/-- A page whose stored version token is the empty string. -/
def emptyTokenPage : PageStores :=
  { localStorage := [("blazeVersion", ""), ("currentTheme", "dark")],
    sessionStorage := [("scrollPos_home", "120")],
    controller := true }

/-! ## Asset preloading and the category lists of the controllers -/

/-- An element of `assetsToPreload`: a path, the value inherited under a name of
`Object.prototype`, or `undefined`. -/
inductive PreloadSrc where
  | src (path : String)
  | inherited (name : String)
  | undefined
deriving DecidableEq, Repr

/-- The object `menuAssets` of `preloadAssets` (script.js 135-147): its own
properties. -/
def menuAssets : JSObject :=
  [("gourmet-burgers", "assets/menu/GOURMET BURGERS.svg"),
   ("wraps", "assets/menu/WRAPS.svg"),
   ("sides", "assets/menu/SIDES.svg"),
   ("pasta", "assets/menu/PASTA.svg"),
   ("main-course", "assets/menu/MAIN COURSE.svg"),
   ("chinese", "assets/menu/CHINESE.svg"),
   ("og-momos", "assets/menu/momos.svg"),
   ("cold-beverages", "assets/menu/COLD BEVERAGES.svg"),
   ("hot-beverages", "assets/menu/HOT BEVERAGES.svg"),
   ("desserts", "assets/menu/DESSERTS.svg"),
   ("indian", "assets/menu/INDIAN.svg")]

/-- The read `menuAssets[key]`. -/
def menuAssetsGet (key : String) : PreloadSrc :=
  match menuAssets.getProp key with
  | some path => PreloadSrc.src path
  | none => if key ∈ objectPrototypeNames then PreloadSrc.inherited key else PreloadSrc.undefined

/-- Truthiness of an element. -/
def PreloadSrc.truthy : PreloadSrc → Bool
  | .src path => decide (path ≠ "")
  | .inherited _ => true
  | .undefined => false

/-- The read `menuAssets[categories[i]]`; an index outside the array gives
`categories[i] = undefined`, and `menuAssets[undefined]` is `undefined`. -/
def menuAssetAt (categories : List String) (i : Int) : PreloadSrc :=
  if 0 ≤ i then
    match categories.get? i.toNat with
    | some key => menuAssetsGet key
    | none => PreloadSrc.undefined
  else PreloadSrc.undefined

/-- The array `assetsToPreload` that `preloadAssets` builds for `currentHash`
(script.js 129-171). -/
def assetsToPreload (currentHash : String) : List PreloadSrc :=
  let commonAssets : List PreloadSrc :=
    [PreloadSrc.src "assets/Blaze PNG 3.svg", PreloadSrc.src "assets/Get D.svg"]
  if (menuAssetsGet currentHash).truthy then
    let categories := JSObject.keys menuAssets
    let currentIndex := arrayIndexOf categories currentHash
    commonAssets ++ [menuAssetsGet currentHash] ++
      (if currentIndex > 0 then [menuAssetAt categories (currentIndex - 1)] else []) ++
      (if currentIndex < (categories.length : Int) - 1 then
        [menuAssetAt categories (currentIndex + 1)] else [])
  else if currentHash = "menu" then
    commonAssets ++
      [menuAssetsGet "gourmet-burgers", menuAssetsGet "wraps", menuAssetsGet "sides"]
  else if currentHash = "about" then commonAssets ++ [PreloadSrc.src "assets/About.svg"]
  else commonAssets

/-- Function `preloadAssets` (script.js 124-177): the assets it preloads, for
the location hash; `currentHash` is `window.location.hash.slice(1) || 'home'`. -/
def preloadAssets (locationHash : String) : List PreloadSrc :=
  assetsToPreload (requestedHash locationHash)

/-- Follows the words of the specification, not the code: the two common
assets; for the category at position `i` of the table its asset, then that
of position `i - 1` when `i > 0`, then that of position `i + 1` when `i < 10`;
for "menu" the first three categories; for "about" `assets/About.svg`; for
every other hash nothing more. -/
def specAssetsToPreload (currentHash : String) : List PreloadSrc :=
  let assets : List String := menuAssets.map Prod.snd
  let common : List PreloadSrc :=
    [PreloadSrc.src "assets/Blaze PNG 3.svg", PreloadSrc.src "assets/Get D.svg"]
  if currentHash ∈ JSObject.keys menuAssets then
    let i := (JSObject.keys menuAssets).indexOf currentHash
    common ++ [PreloadSrc.src (assets.getD i "")] ++
      (if i > 0 then [PreloadSrc.src (assets.getD (i - 1) "")] else []) ++
      (if i < 10 then [PreloadSrc.src (assets.getD (i + 1) "")] else [])
  else if currentHash = "menu" then
    common ++ (assets.take 3).map PreloadSrc.src
  else if currentHash = "about" then common ++ [PreloadSrc.src "assets/About.svg"]
  else common

/-- The array `menuCategories` of ajax-navigation.js (lines 12-23). -/
def ajaxNavigation_menuCategories : List String :=
  ["gourmet-burgers", "wraps", "sides", "pasta", "og-momos", "chinese", "indian",
   "cold-beverages", "hot-beverages", "desserts"]

/-- The array `menuCategories` of menu-transitions.js (lines 11-22). -/
def menuTransitions_menuCategories : List String :=
  ["gourmet-burgers", "wraps", "sides", "pasta", "og-momos", "chinese", "main-course",
   "cold-beverages", "hot-beverages", "desserts"]

/-- The array `menuSections` of dissolve-animation.js (lines 3-13). -/
def dissolveAnimation_menuSections : List String :=
  ["gourmet-burgers", "wraps", "sides", "pasta", "main-course", "chinese", "og-momos",
   "cold-beverages", "hot-beverages"]

/-! ## Properties of the object model -/

theorem JSObject.getProp_eq_none_iff (o : JSObject) (k : String) :
    o.getProp k = none ↔ k ∉ o.keys := by
  induction o with
  | nil => simp [JSObject.getProp, JSObject.keys]
  | cons p rest ih =>
    obtain ⟨k', v⟩ := p
    by_cases h : k' = k
    · simp [JSObject.getProp, JSObject.keys, h]
    · have h' : ¬ k = k' := fun e => h e.symm
      simpa [JSObject.getProp, JSObject.keys, h, h'] using ih

theorem JSObject.hasProp_iff (o : JSObject) (k : String) :
    o.hasProp k = true ↔ k ∈ o.keys := by
  unfold JSObject.hasProp
  cases hg : o.getProp k with
  | none => simpa using (o.getProp_eq_none_iff k).1 hg
  | some v =>
    have : ¬ (o.getProp k = none) := by simp [hg]
    simpa using (fun hn => this ((o.getProp_eq_none_iff k).2 hn))

theorem JSObject.keys_deleteProp (o : JSObject) (k : String) :
    (o.deleteProp k).keys = o.keys.filter (fun x => decide (x ≠ k)) := by
  induction o with
  | nil => rfl
  | cons p rest ih =>
    obtain ⟨k', v⟩ := p
    by_cases h : k' = k
    · simpa [JSObject.deleteProp, JSObject.keys, h] using ih
    · simpa [JSObject.deleteProp, JSObject.keys, h] using ih

theorem JSObject.keys_setProp_of_mem (o : JSObject) (k v : String) (h : k ∈ o.keys) :
    (o.setProp k v).keys = o.keys := by
  induction o with
  | nil => simp [JSObject.keys] at h
  | cons p rest ih =>
    obtain ⟨k', v'⟩ := p
    by_cases hk : k' = k
    · simp [JSObject.setProp, JSObject.keys, hk]
    · have h' : k ∈ JSObject.keys rest := by
        have hne : ¬ k = k' := fun e => hk e.symm
        simpa [JSObject.keys, hne] using h
      have := ih h'
      simpa [JSObject.setProp, JSObject.keys, hk] using this

theorem JSObject.setProp_of_not_mem (o : JSObject) (k v : String) (h : k ∉ o.keys) :
    o.setProp k v = o ++ [(k, v)] := by
  induction o with
  | nil => rfl
  | cons p rest ih =>
    obtain ⟨k', v'⟩ := p
    have hne : ¬ k' = k := fun e => h (by simp [JSObject.keys, e])
    have h' : k ∉ JSObject.keys rest := fun hm => h (by
      simp only [JSObject.keys, List.map_cons, List.mem_cons]
      exact Or.inr hm)
    simp [JSObject.setProp, hne, ih h']

theorem JSObject.keys_setProp_of_not_mem (o : JSObject) (k v : String) (h : k ∉ o.keys) :
    (o.setProp k v).keys = o.keys ++ [k] := by
  rw [o.setProp_of_not_mem k v h]; simp [JSObject.keys]

theorem JSObject.getProp_setProp_self (o : JSObject) (k v : String) :
    (o.setProp k v).getProp k = some v := by
  induction o with
  | nil => simp [JSObject.setProp, JSObject.getProp]
  | cons p rest ih =>
    obtain ⟨k', v'⟩ := p
    by_cases hk : k' = k
    · simp [JSObject.setProp, JSObject.getProp, hk]
    · simp [JSObject.setProp, JSObject.getProp, hk, ih]

theorem JSObject.nodup_keys_setProp (o : JSObject) (k v : String) (h : o.keys.Nodup) :
    (o.setProp k v).keys.Nodup := by
  by_cases hk : k ∈ o.keys
  · rw [o.keys_setProp_of_mem k v hk]; exact h
  · rw [o.keys_setProp_of_not_mem k v hk]
    exact List.nodup_append.2 ⟨h, List.nodup_singleton k, by
      intro a ha hb
      have : a = k := by simpa using hb
      exact hk (this ▸ ha)⟩

theorem JSObject.mem_keys_setProp (o : JSObject) (k v x : String) :
    x ∈ (o.setProp k v).keys ↔ x = k ∨ x ∈ o.keys := by
  by_cases hk : k ∈ o.keys
  · rw [o.keys_setProp_of_mem k v hk]
    constructor
    · exact Or.inr
    · rintro (rfl | h)
      · exact hk
      · exact h
  · rw [o.keys_setProp_of_not_mem k v hk]
    simp [or_comm]

theorem JSObject.assign_of_ne (o : JSObject) (k v : String) (h : k ≠ "__proto__") :
    o.assign k v = o.setProp k v := by
  simp [JSObject.assign, h]

theorem JSObject.assign_proto (o : JSObject) (v : String) :
    o.assign "__proto__" v = o := by
  simp [JSObject.assign]

theorem JSObject.nodup_keys_assign (o : JSObject) (k v : String) (h : o.keys.Nodup) :
    (o.assign k v).keys.Nodup := by
  by_cases hk : k = "__proto__"
  · simpa [JSObject.assign, hk] using h
  · rw [o.assign_of_ne k v hk]; exact JSObject.nodup_keys_setProp o k v h

theorem JSObject.mem_keys_assign (o : JSObject) (k v x : String)
    (h : x ∈ (o.assign k v).keys) : x = k ∨ x ∈ o.keys := by
  by_cases hk : k = "__proto__"
  · right; simpa [JSObject.assign, hk] using h
  · rw [o.assign_of_ne k v hk] at h
    exact (JSObject.mem_keys_setProp o k v x).1 h

theorem JSObject.lookup_of_getProp (o : JSObject) (k v : String)
    (h : o.getProp k = some v) : o.lookup k = some (JSValue.str v) := by
  simp [JSObject.lookup, h]

theorem JSObject.lookup_eq_none_iff (o : JSObject) (k : String) :
    o.lookup k = none ↔ k ∉ o.keys ∧ k ∉ objectPrototypeNames := by
  unfold JSObject.lookup
  cases hg : o.getProp k with
  | none =>
    have hk := (JSObject.getProp_eq_none_iff o k).1 hg
    by_cases hp : k ∈ objectPrototypeNames <;> simp [hp, hk]
  | some v =>
    have hk : k ∈ o.keys := by
      rw [← JSObject.hasProp_iff]; simp [JSObject.hasProp, hg]
    simp [hk]

theorem JSObject.hasIn_eq_false_iff (o : JSObject) (k : String) :
    o.hasIn k = false ↔ k ∉ o.keys ∧ k ∉ objectPrototypeNames := by
  unfold JSObject.hasIn
  by_cases hk : k ∈ o.keys
  · have := (JSObject.hasProp_iff o k).2 hk
    simp [this, hk]
  · have : o.hasProp k = false := by
      cases h : o.hasProp k with
      | false => rfl
      | true => exact absurd ((JSObject.hasProp_iff o k).1 h) hk
    simp [this, hk]

/-! ## Properties of the methods -/

theorem PageCache.updateAccessOrder_order (c : PageCache) (key : String) :
    (c._updateAccessOrder key)._accessOrder =
      if key ∈ c._accessOrder then c._accessOrder.erase key ++ [key]
      else c._accessOrder := by
  unfold PageCache._updateAccessOrder arrayIndexOf
  by_cases h : key ∈ c._accessOrder
  · have hpos : (-1 : Int) < ((List.indexOf key c._accessOrder : Nat) : Int) := by omega
    simp [h, hpos, List.eraseIdx_indexOf_eq_erase]
  · simp [h]

theorem PageCache.updateAccessOrder_cache (c : PageCache) (key : String) :
    (c._updateAccessOrder key)._cache = c._cache ∧
      (c._updateAccessOrder key)._maxSize = c._maxSize := by
  unfold PageCache._updateAccessOrder
  by_cases h : arrayIndexOf c._accessOrder key > -1 <;> simp [h]

theorem PageCache.updateAccessOrder_perm (c : PageCache) (key : String) :
    List.Perm (c._updateAccessOrder key)._accessOrder c._accessOrder := by
  rw [c.updateAccessOrder_order key]
  split
  · next h =>
    exact (List.perm_append_comm.trans (List.perm_cons_erase h).symm)
  · exact List.Perm.refl _

theorem PageCache.set_of_lt (c : PageCache) (key value : String)
    (h : c._accessOrder.length < c._maxSize) :
    c.set key value =
      ⟨c._cache.assign key value, c._maxSize, c._accessOrder ++ [key]⟩ := by
  have h' : ¬ (c._accessOrder.length ≥ c._maxSize) := by omega
  simp [PageCache.set, h']

theorem PageCache.set_of_ge_cons (c : PageCache) (key value oldest : String)
    (rest : List String) (ho : c._accessOrder = oldest :: rest)
    (h : c._maxSize ≤ c._accessOrder.length) :
    c.set key value =
      ⟨(c._cache.deleteProp oldest).assign key value, c._maxSize, rest ++ [key]⟩ := by
  have h' : c._accessOrder.length ≥ c._maxSize := h
  simp only [PageCache.set, h', if_true]
  rw [ho]

theorem inv_set {m : Nat} (hm : 1 ≤ m) (c : PageCache) (key value : String)
    (h : Inv m c) : Inv m (c.set key value) := by
  obtain ⟨h1, h2, h3, h4⟩ := h
  by_cases hlt : c._accessOrder.length < c._maxSize
  · rw [c.set_of_lt key value hlt]
    refine ⟨h1, JSObject.nodup_keys_assign _ _ _ h2, ?_, ?_⟩
    · intro k hk
      rcases JSObject.mem_keys_assign _ _ _ _ hk with rfl | hk'
      · simp
      · exact List.mem_append_left _ (h3 k hk')
    · simp only [List.length_append, List.length_singleton]; omega
  · have hge : c._maxSize ≤ c._accessOrder.length := by omega
    cases ho : c._accessOrder with
    | nil => rw [ho] at hge; simp at hge; omega
    | cons oldest rest =>
      rw [c.set_of_ge_cons key value oldest rest ho hge]
      refine ⟨h1, JSObject.nodup_keys_assign _ _ _ ?_, ?_, ?_⟩
      · rw [JSObject.keys_deleteProp]; exact h2.filter _
      · intro k hk
        rcases JSObject.mem_keys_assign _ _ _ _ hk with rfl | hk'
        · simp
        · rw [JSObject.keys_deleteProp, List.mem_filter] at hk'
          have hne : k ≠ oldest := by simpa using hk'.2
          have hmem := h3 k hk'.1
          rw [ho] at hmem
          rcases List.mem_cons.1 hmem with e | e
          · exact absurd e hne
          · exact List.mem_append_left _ e
      · rw [ho] at h4
        simp only [List.length_append, List.length_cons, List.length_nil] at h4 ⊢
        omega

theorem inv_get {m : Nat} (c : PageCache) (key : String) (h : Inv m c) :
    Inv m (c.get key).2 := by
  have hu : Inv m (c._updateAccessOrder key) := by
    obtain ⟨h1, h2, h3, h4⟩ := h
    have hp := c.updateAccessOrder_perm key
    obtain ⟨e1, e2⟩ := c.updateAccessOrder_cache key
    refine ⟨e2.trans h1, e1 ▸ h2, ?_, hp.length_eq ▸ h4⟩
    intro k hk
    rw [e1] at hk
    exact hp.symm.subset (h3 k hk)
  unfold PageCache.get
  cases hg : c._cache.lookup key with
  | none => exact h
  | some v =>
    by_cases hv : v.truthy = true
    · simpa [hv] using hu
    · simpa [hv] using h

theorem inv_step {m : Nat} (hm : 1 ≤ m) (c : PageCache) (call : Call) (h : Inv m c) :
    Inv m (step c call) := by
  cases call with
  | get key => exact inv_get c key h
  | set key value => exact inv_set hm c key value h
  | has key => exact h
  | clear =>
    exact ⟨h.1, List.nodup_nil, by simp [step, PageCache.clear, JSObject.keys], Nat.zero_le m⟩

theorem inv_run {m : Nat} (hm : 1 ≤ m) (calls : List Call) :
    ∀ c : PageCache, Inv m c → Inv m (run c calls) := by
  induction calls with
  | nil => intro c h; exact h
  | cons call rest ih => intro c h; exact ih (step c call) (inv_step hm c call h)

theorem inv_withMaxSize (m : Nat) : Inv m (withMaxSize m) :=
  ⟨rfl, List.nodup_nil, by simp [withMaxSize, menuPagesCache, JSObject.keys], Nat.zero_le m⟩

theorem inv_keys_length_le {m : Nat} (s : PageCache) (h : Inv m s) :
    s._cache.keys.length ≤ m :=
  Nat.le_trans (List.subperm_of_subset h.2.1 h.2.2.1).length_le h.2.2.2

theorem JSObject.deleteProp_of_not_mem (o : JSObject) (k : String) (h : k ∉ o.keys) :
    o.deleteProp k = o := by
  unfold JSObject.deleteProp
  rw [List.filter_eq_self]
  intro p hp
  have : p.1 ≠ k := fun e => h (e ▸ List.mem_map_of_mem Prod.fst hp)
  simpa using this

theorem JSObject.deleteProp_cons_self (o : JSObject) (k v : String) (h : k ∉ o.keys) :
    JSObject.deleteProp ((k, v) :: o) k = o := by
  have := o.deleteProp_of_not_mem k h
  unfold JSObject.deleteProp at this ⊢
  simpa using this

/-- The last `m` elements of `p ++ [x]` are the last `m` elements of the last
`m` elements of `p` followed by `x`. -/
theorem drop_length_sub_append {α : Type} (m : Nat) (hm : 1 ≤ m) (p : List α) (x : α) :
    (p ++ [x]).drop ((p ++ [x]).length - m) =
      (p.drop (p.length - m) ++ [x]).drop ((p.drop (p.length - m) ++ [x]).length - m) := by
  by_cases h : p.length ≤ m
  · have h0 : p.length - m = 0 := by omega
    simp [h0]
  · have e1 : (p ++ [x]).length - m = (p.length - m) + 1 := by
      simp only [List.length_append, List.length_singleton]; omega
    have e2 : (p.drop (p.length - m) ++ [x]).length - m = 1 := by
      simp only [List.length_append, List.length_singleton, List.length_drop]; omega
    have e3 : (p.length - m) + 1 ≤ p.length := by omega
    have e4 : 1 ≤ (p.drop (p.length - m)).length := by
      simp only [List.length_drop]; omega
    rw [e1, e2, List.drop_append_of_le_length e3, List.drop_append_of_le_length e4,
      List.drop_drop]

/-- One `set` of a fresh key on a state whose `_cache` and `_accessOrder` list
the same pairwise-distinct keys in the same order. -/
theorem set_fresh_key (m : Nat) (hm : 1 ≤ m) (q : JSObject) (k v : String)
    (hq : q.length ≤ m) (hd : q.keys.Nodup) (hk : k ∉ q.keys) (hp : k ≠ "__proto__") :
    PageCache.set ⟨q, m, q.keys⟩ k v =
      ⟨(q ++ [(k, v)]).drop ((q ++ [(k, v)]).length - m), m,
        JSObject.keys ((q ++ [(k, v)]).drop ((q ++ [(k, v)]).length - m))⟩ := by
  by_cases hlt : q.length < m
  · have h0 : (q ++ [(k, v)]).length - m = 0 := by
      simp only [List.length_append, List.length_singleton]; omega
    rw [PageCache.set_of_lt _ k v (by simpa [JSObject.keys] using hlt), h0]
    simp [JSObject.assign_of_ne _ k v hp, JSObject.setProp_of_not_mem q k v hk,
      JSObject.keys]
  · have hqm : q.length = m := by omega
    cases q with
    | nil => simp at hqm; omega
    | cons p q' =>
      obtain ⟨o, ov⟩ := p
      have h1 : ((o, ov) :: q' ++ [(k, v)]).length - m = 1 := by
        simp only [List.length_append, List.length_cons, List.length_nil] at hqm ⊢
        omega
      have ho : o ∉ JSObject.keys q' := by
        have := hd
        simp only [JSObject.keys, List.map_cons, List.nodup_cons] at this
        exact this.1
      have hk' : k ∉ JSObject.keys q' := fun hm' => hk (by
        simp only [JSObject.keys, List.map_cons, List.mem_cons]
        exact Or.inr hm')
      rw [PageCache.set_of_ge_cons _ k v o (JSObject.keys q') rfl
        (by simp only [JSObject.keys, List.length_map]; omega), h1]
      simp only [JSObject.deleteProp_cons_self q' o ov ho,
        JSObject.assign_of_ne _ k v hp, JSObject.setProp_of_not_mem q' k v hk']
      simp [JSObject.keys]

theorem run_append_set (c : PageCache) (calls : List Call) (k v : String) :
    run c (calls ++ [Call.set k v]) = (run c calls).set k v := by
  simp [run, List.foldl_append, step]

/-- Setting pairwise-distinct keys, none of them "__proto__", on an empty cache
of capacity `m ≥ 1` leaves the last `m` of them, in insertion order. -/
theorem run_setCalls_distinct (m : Nat) (hm : 1 ≤ m) (kvs : List (String × String)) :
    (kvs.map Prod.fst).Nodup → "__proto__" ∉ kvs.map Prod.fst →
    run (withMaxSize m) (setCalls kvs) =
      ⟨kvs.drop (kvs.length - m), m, JSObject.keys (kvs.drop (kvs.length - m))⟩ := by
  induction kvs using List.reverseRecOn with
  | nil => intro _ _; simp [run, setCalls, withMaxSize, menuPagesCache, JSObject.keys]
  | append_singleton p kv ih =>
    intro hd hproto
    obtain ⟨k, v⟩ := kv
    have hproto' : "__proto__" ∉ p.map Prod.fst ∧ k ≠ "__proto__" := by
      rw [List.map_append, List.mem_append, not_or] at hproto
      exact ⟨hproto.1, fun e => hproto.2 (by simp [e])⟩
    have hd' : (p.map Prod.fst).Nodup ∧ k ∉ p.map Prod.fst := by
      rw [List.map_append, List.nodup_append] at hd
      refine ⟨hd.1, fun hmem => ?_⟩
      exact hd.2.2 hmem (by simp)
    have hsub : List.Sublist (p.drop (p.length - m)) p := List.drop_sublist _ _
    have hq : (p.drop (p.length - m)).length ≤ m := by
      simp only [List.length_drop]; omega
    have hnd : (JSObject.keys (p.drop (p.length - m))).Nodup :=
      (hsub.map Prod.fst).nodup hd'.1
    have hk : k ∉ JSObject.keys (p.drop (p.length - m)) := fun hmem =>
      hd'.2 ((hsub.map Prod.fst).subset hmem)
    have e : setCalls (p ++ [(k, v)]) = setCalls p ++ [Call.set k v] := by
      simp [setCalls]
    rw [e, run_append_set, ih hd'.1 hproto'.1,
      set_fresh_key m hm (p.drop (p.length - m)) k v hq hnd hk hproto'.2,
      ← drop_length_sub_append m hm p (k, v)]

theorem PageCache.get_hit (c : PageCache) (key v : String)
    (hg : c._cache.getProp key = some v) (hv : v ≠ "") :
    c.get key = (some (JSValue.str v), ⟨c._cache, c._maxSize,
      if key ∈ c._accessOrder then c._accessOrder.erase key ++ [key] else c._accessOrder⟩) := by
  obtain ⟨e1, e2⟩ := c.updateAccessOrder_cache key
  have e3 := c.updateAccessOrder_order key
  have hs : c._updateAccessOrder key = ⟨c._cache, c._maxSize,
      if key ∈ c._accessOrder then c._accessOrder.erase key ++ [key] else c._accessOrder⟩ := by
    cases hc : c._updateAccessOrder key with
    | mk a b d =>
      rw [hc] at e1 e2 e3
      simp only at e1 e2 e3
      rw [e1, e2, e3]
  have hl := c._cache.lookup_of_getProp key v hg
  have ht : (JSValue.str v).truthy = true := by simp [JSValue.truthy, hv]
  simp only [PageCache.get, hl, ht, if_true, hs]

/-- A successful `get` in a state satisfying the invariant moves the key to the
end of `_accessOrder` and keeps the relative order of the other keys. -/
theorem get_hit_moves_key_last {m : Nat} (c : PageCache) (key v : String) (h : Inv m c)
    (hg : (c.get key).1 = some (JSValue.str v)) :
    (c.get key).2._cache = c._cache ∧
      (c.get key).2._accessOrder = c._accessOrder.erase key ++ [key] ∧
      (c.get key).2._accessOrder.filter (fun x => decide (x ≠ key)) =
        c._accessOrder.filter (fun x => decide (x ≠ key)) := by
  cases hp : c._cache.getProp key with
  | none =>
    obtain ⟨e1, _⟩ := c.updateAccessOrder_cache key
    by_cases hpn : key ∈ objectPrototypeNames <;>
      simp [PageCache.get, JSObject.lookup, hp, hpn, JSValue.truthy, e1] at hg
  | some w =>
    by_cases hw : w = ""
    · simp [PageCache.get, JSObject.lookup, hp, hw, JSValue.truthy] at hg
    · have hmem : key ∈ c._accessOrder := by
        apply h.2.2.1
        rw [← JSObject.hasProp_iff]
        simp [JSObject.hasProp, hp]
      rw [c.get_hit key w hp hw]
      simp only [hmem, if_true, true_and]
      rw [List.filter_append]
      have e : ∀ l : List String, key ∈ l →
          (l.erase key).filter (fun x => decide (x ≠ key)) =
            l.filter (fun x => decide (x ≠ key)) := by
        intro l
        induction l with
        | nil => intro hl; simp at hl
        | cons a t ih =>
          intro hl
          by_cases ha : a = key
          · subst ha; simp
          · have ht : key ∈ t := by
              rcases List.mem_cons.1 hl with e | e
              · exact absurd e.symm ha
              · exact e
            have hne : (a == key) = false := by simpa using ha
            rw [List.erase_cons, hne]
            have ih' := ih ht
            have hdec : decide (a ≠ key) = true := by simpa using ha
            simp only [Bool.false_eq_true, if_false, if_true, List.filter_cons, ih', hdec]
      rw [e _ hmem]
      simp

/-- After `set` calls with pairwise-distinct keys `k1..kn`, `n > 15`, none of
them "__proto__", on the empty `menuPagesCache`, `_cache` holds exactly the last
15 keys with their contents and `_accessOrder` is that list of keys in
insertion order. -/
theorem distinct_keys_keep_last (kvs : List (String × String))
    (hd : (kvs.map Prod.fst).Nodup) (hproto : "__proto__" ∉ kvs.map Prod.fst)
    (hn : kvs.length > 15) :
    (run menuPagesCache (setCalls kvs))._cache = kvs.drop (kvs.length - 15) ∧
      (run menuPagesCache (setCalls kvs))._accessOrder =
        (kvs.map Prod.fst).drop (kvs.length - 15) ∧
      (run menuPagesCache (setCalls kvs))._cache.keys.length = 15 := by
  have h := run_setCalls_distinct 15 (by decide) kvs hd hproto
  have e : withMaxSize 15 = menuPagesCache := rfl
  rw [e] at h
  rw [h]
  refine ⟨rfl, ?_, ?_⟩
  · simp [JSObject.keys, List.map_drop]
  · simp only [JSObject.keys, List.length_map, List.length_drop]; omega

/-- A cache of capacity `m ≥ 2` is filled by setting `m` pairwise-distinct keys,
none of them "__proto__", the oldest, k1, with non-empty content.  Then
`get(k1)` returns that content, and a following `set` of a new key `c` evicts
the second-oldest key k2 and keeps k1: the result holds k1, the keys after k2
and `c`; `has(k2)` is then false when k2 is not a name inherited from
`Object.prototype`. -/
theorem get_then_set_evicts_second_oldest (m : Nat) (k1 v1 k2 v2 : String)
    (rest : List (String × String)) (c v : String)
    (hlen : ((k1, v1) :: (k2, v2) :: rest).length = m)
    (hd : (((k1, v1) :: (k2, v2) :: rest).map Prod.fst).Nodup)
    (hproto : "__proto__" ∉ ((k1, v1) :: (k2, v2) :: rest).map Prod.fst)
    (hv : v1 ≠ "")
    (hc : c ∉ ((k1, v1) :: (k2, v2) :: rest).map Prod.fst) (hcp : c ≠ "__proto__") :
    ((run (withMaxSize m) (setCalls ((k1, v1) :: (k2, v2) :: rest))).get k1).1 =
        some (JSValue.str v1) ∧
      (((run (withMaxSize m) (setCalls ((k1, v1) :: (k2, v2) :: rest))).get k1).2.set c v) =
        ⟨(k1, v1) :: rest ++ [(c, v)], m, rest.map Prod.fst ++ [k1, c]⟩ ∧
      ((((run (withMaxSize m) (setCalls ((k1, v1) :: (k2, v2) :: rest))).get k1).2.set c v).has
        k1).1 = true ∧
      (k2 ∉ objectPrototypeNames →
        ((((run (withMaxSize m) (setCalls ((k1, v1) :: (k2, v2) :: rest))).get k1).2.set c
          v).has k2).1 = false) ∧
      ((((run (withMaxSize m) (setCalls ((k1, v1) :: (k2, v2) :: rest))).get k1).2.set c v).has
        c).1 = true := by
  have hm : 1 ≤ m := by
    simp only [List.length_cons] at hlen; omega
  have hfill := run_setCalls_distinct m hm _ hd hproto
  have h0 : ((k1, v1) :: (k2, v2) :: rest).length - m = 0 := by omega
  rw [h0, List.drop_zero] at hfill
  simp only [List.map_cons, List.nodup_cons, List.mem_cons, not_or] at hd hc
  obtain ⟨⟨h12, h1r⟩, h2r, _⟩ := hd
  obtain ⟨hc1, hc2, hcr⟩ := hc
  have hget : (run (withMaxSize m) (setCalls ((k1, v1) :: (k2, v2) :: rest))).get k1 =
      (some (JSValue.str v1),
        ⟨(k1, v1) :: (k2, v2) :: rest, m, k2 :: (rest.map Prod.fst ++ [k1])⟩) := by
    rw [hfill, PageCache.get_hit _ k1 v1 (by simp [JSObject.getProp]) hv]
    simp [JSObject.keys]
  have hdel : JSObject.deleteProp ((k1, v1) :: (k2, v2) :: rest) k2 = (k1, v1) :: rest := by
    have e := JSObject.deleteProp_cons_self rest k2 v2 h2r
    unfold JSObject.deleteProp at e ⊢
    rw [List.filter_cons]
    simp only [ne_eq, h12, not_false_eq_true, decide_True, if_true]
    rw [e]
  have hkeys : c ∉ JSObject.keys ((k1, v1) :: rest) := by
    simp only [JSObject.keys, List.map_cons, List.mem_cons, not_or]
    exact ⟨hc1, hcr⟩
  have hset : ((run (withMaxSize m) (setCalls ((k1, v1) :: (k2, v2) :: rest))).get k1).2.set c v =
      ⟨(k1, v1) :: rest ++ [(c, v)], m, rest.map Prod.fst ++ [k1, c]⟩ := by
    rw [hget]
    rw [PageCache.set_of_ge_cons _ c v k2 (rest.map Prod.fst ++ [k1]) rfl
      (by simp only [List.length_cons, List.length_append, List.length_map,
            List.length_nil] at hlen ⊢; omega)]
    simp only [hdel, JSObject.assign_of_ne _ c v hcp, JSObject.setProp_of_not_mem _ c v hkeys]
    simp
  rw [hset]
  refine ⟨by rw [hget], rfl, ?_, ?_, ?_⟩
  · simp [PageCache.has, JSObject.hasIn, JSObject.hasProp, JSObject.getProp]
  · intro hk2
    have hn : k2 ∉ JSObject.keys ((k1, v1) :: rest ++ [(c, v)]) := by
      simp only [JSObject.keys, List.map_cons, List.map_append, List.mem_cons,
        List.mem_append, List.map_nil, List.not_mem_nil, or_false, not_or]
      exact ⟨⟨fun e => h12 e.symm, h2r⟩, fun e => hc2 e.symm⟩
    exact (JSObject.hasIn_eq_false_iff _ k2).2 ⟨hn, hk2⟩
  · have hin : c ∈ JSObject.keys ((k1, v1) :: rest ++ [(c, v)]) := by
      simp [JSObject.keys]
    have := (JSObject.hasProp_iff _ c).2 hin
    rw [List.cons_append] at this
    simp [PageCache.has, JSObject.hasIn, this]

/-- For every state and key `has(key)` leaves the cache as it was; and when
`has(key)` is false, `get(key)` returns `null` and leaves `_cache`, `_maxSize`
and `_accessOrder` as they were. -/
theorem has_and_missed_get_change_nothing (c : PageCache) (key : String) :
    (c.has key).2 = c ∧
      ((c.has key).1 = false → (c.get key).1 = none ∧ (c.get key).2 = c) := by
  refine ⟨rfl, fun h => ?_⟩
  have hn : c._cache.lookup key = none :=
    (JSObject.lookup_eq_none_iff _ _).2 ((JSObject.hasIn_eq_false_iff _ _).1 h)
  simp [PageCache.get, hn]

/-- After `clear()` in any state reachable from the empty `menuPagesCache`, the
object equals the freshly created one: `_accessOrder` is empty, every later
sequence of calls gives the same states and the same `get` and `has` results as
on the fresh cache, and for every key that is not a name inherited from
`Object.prototype`, `has(key)` is false and `get(key)` is `null`. -/
theorem clear_gives_fresh_cache (calls more : List Call) (key : String) :
    (run menuPagesCache calls).clear = menuPagesCache ∧
      (run menuPagesCache calls).clear._accessOrder = [] ∧
      run (run menuPagesCache calls).clear more = run menuPagesCache more ∧
      ((run (run menuPagesCache calls).clear more).get key).1 =
        ((run menuPagesCache more).get key).1 ∧
      ((run (run menuPagesCache calls).clear more).has key).1 =
        ((run menuPagesCache more).has key).1 ∧
      (key ∉ objectPrototypeNames →
        ((run menuPagesCache calls).clear.has key).1 = false ∧
          ((run menuPagesCache calls).clear.get key).1 = none) := by
  have h : Inv 15 (run menuPagesCache calls) :=
    inv_run (by decide) calls menuPagesCache (inv_withMaxSize 15)
  have e : (run menuPagesCache calls).clear = menuPagesCache := by
    have hm : (run menuPagesCache calls)._maxSize = 15 := h.1
    unfold PageCache.clear
    rw [hm]
    rfl
  rw [e]
  refine ⟨rfl, rfl, rfl, rfl, rfl, fun hk => ?_⟩
  simp [PageCache.has, PageCache.get, menuPagesCache, JSObject.hasIn, JSObject.hasProp,
    JSObject.lookup, JSObject.getProp, hk]

/-- Method `set` stores the value under the key, unless the key is
"__proto__". -/
theorem PageCache.set_stores (c : PageCache) (key value : String) (h : key ≠ "__proto__") :
    (c.set key value)._cache.getProp key = some value := by
  simp only [PageCache.set, JSObject.assign_of_ne _ key value h]
  exact JSObject.getProp_setProp_self _ _ _

/-- Method `set` with the key "__proto__" adds no property to `_cache`. -/
theorem PageCache.set_proto_stores_nothing (c : PageCache) (value : String) :
    ∀ k ∈ JSObject.keys (c.set "__proto__" value)._cache, k ∈ JSObject.keys c._cache := by
  intro k hk
  by_cases hlt : c._accessOrder.length < c._maxSize
  · rw [c.set_of_lt _ value hlt, JSObject.assign_proto] at hk
    exact hk
  · have hge : c._maxSize ≤ c._accessOrder.length := by omega
    cases ho : c._accessOrder with
    | nil =>
      have h' : ([] : List String).length ≥ c._maxSize := ho ▸ hge
      simp only [PageCache.set, ho, h', if_true, JSObject.assign_proto] at hk
      rw [JSObject.keys_deleteProp] at hk
      exact (List.mem_filter.1 hk).1
    | cons oldest rest =>
      rw [c.set_of_ge_cons _ value oldest rest ho hge, JSObject.assign_proto] at hk
      simp only at hk
      rw [JSObject.keys_deleteProp] at hk
      exact (List.mem_filter.1 hk).1

/-! ## Properties of `loadContent` -/

theorem routesGet_home : routesGet "home" = some (RouteValue.path "pages/home.html") := by
  decide

theorem resolvePage_home : resolvePage "home" = some (RouteValue.path "pages/home.html") := by
  decide

theorem isMenuPage_home : isMenuPage "home" = false := by
  decide

theorem resolvePage_isSome (hash : String) : ∃ page, resolvePage hash = some page := by
  unfold resolvePage
  cases h : routesGet hash with
  | none => exact ⟨_, routesGet_home⟩
  | some v =>
    by_cases hv : v.truthy = true
    · exact ⟨v, by simp [hv]⟩
    · exact ⟨RouteValue.path "pages/home.html", by simp [hv, routesGet_home]⟩

theorem menuPages_are_routes : ∀ hash ∈ menuPages, routes.hasProp hash = true := by
  decide

theorem resolvePage_unknown (hash : String) (hkey : routes.hasProp hash = false)
    (hproto : hash ∉ objectPrototypeNames) :
    resolvePage hash = some (RouteValue.path "pages/home.html") := by
  have hg : routes.getProp hash = none := by
    cases h : routes.getProp hash with
    | none => rfl
    | some v => simp [JSObject.hasProp, h] at hkey
  simp [resolvePage, routesGet, hg, hproto, routesGet_home]
  decide

theorem isMenuPage_unknown (hash : String) (hkey : routes.hasProp hash = false) :
    isMenuPage hash = false := by
  cases h : isMenuPage hash with
  | false => rfl
  | true =>
    have hm : hash ∈ menuPages := by simpa [isMenuPage] using h
    rw [menuPages_are_routes hash hm] at hkey
    exact absurd hkey (by decide)

/-- No menu token is a name inherited from `Object.prototype`. -/
theorem menuPages_not_inherited : ∀ hash ∈ menuPages, hash ∉ objectPrototypeNames := by
  decide

theorem isMenuPage_ne_proto (hash : String) (h : isMenuPage hash = true) :
    hash ≠ "__proto__" := by
  intro e
  have hm : hash ∈ menuPages := by simpa [isMenuPage] using h
  exact menuPages_not_inherited hash hm (by rw [e]; decide)

/-- Without an app element `loadContent` returns before any fetch. -/
theorem loadContent_no_app (s : Browser) (h : s.app = none) :
    (loadContent s).2 = none := by
  unfold loadContent
  by_cases h0 : s.locationHash.drop 1 = "" <;> simp [h0, h]

/-- What `loadContent` does when it issues a fetch: the cache is as before, the
requested token is recorded as current page, and the location hash is changed
only when it was empty. -/
theorem loadContent_pending (s : Browser) (p : Pending) (hp : (loadContent s).2 = some p) :
    p.hash = requestedHash s.locationHash ∧
      resolvePage (requestedHash s.locationHash) = some p.page ∧
      (loadContent s).1.cache = s.cache ∧
      (loadContent s).1.cacheLog =
        s.cacheLog ++ (if isMenuPage p.hash then [Call.has p.hash] else []) ∧
      (∃ a, s.app = some a ∧
        (loadContent s).1.app = some { a with currentPage := some p.hash }) ∧
      (loadContent s).1.locationHash =
        (if s.locationHash.drop 1 = "" then "#home" else s.locationHash) := by
  cases happ : s.app with
  | none => rw [loadContent_no_app s happ] at hp; exact absurd hp (by simp)
  | some a =>
    obtain ⟨page, hpage⟩ := resolvePage_isSome (requestedHash s.locationHash)
    by_cases h0 : s.locationHash.drop 1 = ""
    · have hr : requestedHash s.locationHash = "home" := by simp [requestedHash, h0]
      rw [hr] at hpage
      simp [loadContent, h0, hr, happ, hpage, isMenuPage_home] at hp ⊢
      subst hp
      simp [isMenuPage_home]
    · have hr : requestedHash s.locationHash = s.locationHash.drop 1 := by
        simp [requestedHash, h0]
      rw [hr] at hpage
      by_cases hm : isMenuPage (s.locationHash.drop 1) = true
      · by_cases hh : s.cache._cache.hasIn (s.locationHash.drop 1) = true
        · simp [loadContent, h0, hr, happ, hpage, hm, PageCache.has, hh] at hp
        · simp [loadContent, h0, hr, happ, hpage, hm, PageCache.has, hh] at hp ⊢
          subst hp
          simp [hm]
      · simp [loadContent, h0, hr, happ, hpage, hm] at hp ⊢
        subst hp
        simp [hm]

theorem loadContentSettled_failed (s : Browser) (p : Pending) (o : FetchOutcome)
    (ho : o.failed = true) :
    loadContentSettled s p o =
      { s with app := s.app.map (fun a => { a with innerHTML := unableToLoadHTML }) } := by
  cases o with
  | networkError => rfl
  | timeoutAbort => rfl
  | response ok body =>
    cases ok with
    | false => rfl
    | true => simp [FetchOutcome.failed] at ho

/-! ## The claims -/

/-- C1: starting from the empty `menuPagesCache`, after every finite sequence of
`get`, `set`, `has` and `clear` calls the property names of `_cache` are
pairwise distinct and their number is at most `_maxSize`, which is still 15. -/
theorem C1_size_le_maxSize (calls : List Call) :
    (run menuPagesCache calls)._cache.keys.Nodup ∧
      (run menuPagesCache calls)._cache.keys.length ≤ (run menuPagesCache calls)._maxSize ∧
      (run menuPagesCache calls)._maxSize = 15 := by
  have h : Inv 15 (run menuPagesCache calls) :=
    inv_run (by decide) calls menuPagesCache (inv_withMaxSize 15)
  exact ⟨h.2.1, h.1.symm ▸ inv_keys_length_le _ h, h.1⟩

/-- C3: the fifteen keys k1..k15 are set on the empty `menuPagesCache`, then the
key "__proto__": sixteen pairwise-distinct keys.  The last fifteen of them are
k2..k15 and "__proto__", and `_accessOrder` lists these, but `_cache` holds only
the fourteen keys k2..k15: the page set under "__proto__" was not stored. -/
theorem C3_proto_key_is_not_stored :
    (pagesThenProto.map Prod.fst).Nodup ∧ pagesThenProto.length = 16 ∧
      (pagesThenProto.map Prod.fst).drop (pagesThenProto.length - 15) =
        ["k2", "k3", "k4", "k5", "k6", "k7", "k8", "k9", "k10", "k11", "k12", "k13",
          "k14", "k15", "__proto__"] ∧
      (run menuPagesCache (setCalls pagesThenProto))._accessOrder =
        ["k2", "k3", "k4", "k5", "k6", "k7", "k8", "k9", "k10", "k11", "k12", "k13",
          "k14", "k15", "__proto__"] ∧
      (run menuPagesCache (setCalls pagesThenProto))._cache.keys =
        ["k2", "k3", "k4", "k5", "k6", "k7", "k8", "k9", "k10", "k11", "k12", "k13",
          "k14", "k15"] ∧
      (run menuPagesCache (setCalls pagesThenProto))._cache.getProp "__proto__" = none ∧
      ((run menuPagesCache (setCalls pagesThenProto)).get "__proto__").1 =
        some (JSValue.inherited "__proto__") := by
  decide

/-- C2: the sixteen pairwise-distinct keys k1..k16 are set and k16 is set once
more.  The fifteen distinct keys touched most recently are k2..k16, but
`_cache` holds only the fourteen keys k3..k16 and `_accessOrder` lists k16
twice. -/
theorem C2_repeated_key_evicts_live_key :
    specMostRecentKeys 15 ((sixteenPages ++ [("k16", "p16")]).map Prod.fst) =
        ["k2", "k3", "k4", "k5", "k6", "k7", "k8", "k9", "k10", "k11", "k12", "k13",
          "k14", "k15", "k16"] ∧
      (run menuPagesCache (setCalls (sixteenPages ++ [("k16", "p16")])))._cache.keys =
        ["k3", "k4", "k5", "k6", "k7", "k8", "k9", "k10", "k11", "k12", "k13",
          "k14", "k15", "k16"] ∧
      (run menuPagesCache (setCalls (sixteenPages ++ [("k16", "p16")])))._accessOrder =
        ["k3", "k4", "k5", "k6", "k7", "k8", "k9", "k10", "k11", "k12", "k13",
          "k14", "k15", "k16", "k16"] := by
  decide

/-- C4: the cache is filled by setting the fifteen pairwise-distinct keys k1,
"toString", k3..k15 with non-empty content; `get(k1)` returns the content of k1
and `set(k16)` then removes the entry of the second-oldest key "toString" and
keeps k1.  Yet `has("toString")` is still true and `get("toString")` returns
the function inherited from `Object.prototype`, not `null`.  With
`_maxSize = 2` the calls `set(a)`, `set(toString)`, `get(a)`, `set(c)` leave
"toString" reported as present in the same way; and for `set(__proto__)`,
`set(b)`, `get(__proto__)`, `set(c)` the `get` returns `Object.prototype`
instead of the content set, and no entry is kept for the key that was read. -/
theorem C4_evicted_inherited_name_is_reported_present :
    ((run menuPagesCache (setCalls pagesWithInheritedName)).get "k1").1 =
        some (JSValue.str "p1") ∧
      ((((run menuPagesCache (setCalls pagesWithInheritedName)).get "k1").2.set "k16"
        "p16")._cache.keys) =
        ["k1", "k3", "k4", "k5", "k6", "k7", "k8", "k9", "k10", "k11", "k12", "k13",
          "k14", "k15", "k16"] ∧
      (((((run menuPagesCache (setCalls pagesWithInheritedName)).get "k1").2.set "k16"
        "p16").has "toString").1) = true ∧
      (((((run menuPagesCache (setCalls pagesWithInheritedName)).get "k1").2.set "k16"
        "p16").get "toString").1) = some (JSValue.inherited "toString") ∧
      (((run (withMaxSize 2) (setCalls [("a", "A"), ("toString", "B")])).get "a").2.set "c"
        "C")._cache = [("a", "A"), ("c", "C")] ∧
      ((((run (withMaxSize 2) (setCalls [("a", "A"), ("toString", "B")])).get "a").2.set "c"
        "C").has "toString").1 = true ∧
      ((run (withMaxSize 2) (setCalls [("__proto__", "A"), ("b", "B")])).get "__proto__").1 =
        some (JSValue.inherited "__proto__") ∧
      (((run (withMaxSize 2) (setCalls [("__proto__", "A"), ("b", "B")])).get
        "__proto__").2.set "c" "C")._cache = [("c", "C")] := by
  decide

/-- C5: key "a" is set twice, "b" is set, and `get("a")` returns its content and
leaves `_accessOrder` ending in "a".  After thirteen further `set` calls of new
keys the cache has evicted "a", the key that was read, while "b", not accessed
since, is still cached. -/
theorem C5_read_key_evicted_before_untouched_key :
    ((run menuPagesCache (readThenFill.take 3)).get "a").1 = some (JSValue.str "A") ∧
      (run menuPagesCache (readThenFill.take 4))._accessOrder = ["a", "b", "a"] ∧
      ((run menuPagesCache readThenFill).has "a").1 = false ∧
      ((run menuPagesCache readThenFill).has "b").1 = true := by
  decide

/-- C6: after `set("wraps", "")` the key is present according to `has`, yet
`get` returns `null`. -/
theorem C6_get_null_for_empty_content :
    ((run menuPagesCache [.set "wraps" ""]).has "wraps").1 = true ∧
      ((run menuPagesCache [.set "wraps" ""]).get "wraps").1 = none := by
  decide

/-- C7: in the cache filled with the fifteen keys k1..k15, overwriting the cached
key k15 evicts k1, although the number of distinct keys does not grow. -/
theorem C7_overwrite_evicts_other_key :
    ((run menuPagesCache (setCalls fifteenPages)).has "k15").1 = true ∧
      ((run menuPagesCache (setCalls fifteenPages)).has "k1").1 = true ∧
      (((run menuPagesCache (setCalls fifteenPages)).set "k15" "new").has "k1").1 = false ∧
      (((run menuPagesCache (setCalls fifteenPages)).set "k15" "new")._cache.keys).length = 14 := by
  decide

/-- C8: on the empty cache one `set("wraps", w)` gives `_accessOrder = [wraps]`,
two give `[wraps, wraps]`; on the cache filled with k1..k15 one `set` of k15
leaves k2 cached and a second one evicts it. -/
theorem C8_second_set_changes_state :
    (menuPagesCache.set "wraps" "w")._accessOrder = ["wraps"] ∧
      ((menuPagesCache.set "wraps" "w").set "wraps" "w")._accessOrder = ["wraps", "wraps"] ∧
      (((run menuPagesCache (setCalls fifteenPages)).set "k15" "p15").has "k2").1 = true ∧
      ((((run menuPagesCache (setCalls fifteenPages)).set "k15" "p15").set "k15" "p15").has
        "k2").1 = false := by
  decide

/-- C9: after `set("wraps", w)` twice from the empty cache the key "wraps"
occurs twice in `_accessOrder`. -/
theorem C9_access_order_has_duplicate :
    (run menuPagesCache [.set "wraps" "w", .set "wraps" "w"])._accessOrder =
        ["wraps", "wraps"] ∧
      ¬ (run menuPagesCache [.set "wraps" "w", .set "wraps" "w"])._accessOrder.Nodup := by
  decide

/-- C10: after `set("__proto__", x)` and `set("a", A)` on the empty
`menuPagesCache`, `_cache` holds the key "a" only, so "__proto__" is not
cached; yet `get("__proto__")` returns `Object.prototype` and changes
`_accessOrder` from `[__proto__, a]` to `[a, __proto__]`.  Likewise, after
"constructor" was set twice and fourteen further keys were set, "constructor"
has no entry in `_cache`, yet `get("constructor")` returns the inherited
function and moves the key from the front of `_accessOrder` to its end. -/
theorem C10_get_of_absent_key_reorders :
    (run menuPagesCache [.set "__proto__" "x", .set "a" "A"])._cache = [("a", "A")] ∧
      (run menuPagesCache [.set "__proto__" "x", .set "a" "A"])._accessOrder =
        ["__proto__", "a"] ∧
      ((run menuPagesCache [.set "__proto__" "x", .set "a" "A"]).get "__proto__").1 =
        some (JSValue.inherited "__proto__") ∧
      ((run menuPagesCache [.set "__proto__" "x", .set "a" "A"]).get "__proto__").2._accessOrder =
        ["a", "__proto__"] ∧
      (run menuPagesCache constructorTwiceThenFill)._cache.keys =
        ["k1", "k2", "k3", "k4", "k5", "k6", "k7", "k8", "k9", "k10", "k11", "k12", "k13",
          "k14"] ∧
      (run menuPagesCache constructorTwiceThenFill)._accessOrder =
        ["constructor", "k1", "k2", "k3", "k4", "k5", "k6", "k7", "k8", "k9", "k10", "k11",
          "k12", "k13", "k14"] ∧
      ((run menuPagesCache constructorTwiceThenFill).get "constructor").1 =
        some (JSValue.inherited "constructor") ∧
      ((run menuPagesCache constructorTwiceThenFill).get "constructor").2._accessOrder =
        ["k1", "k2", "k3", "k4", "k5", "k6", "k7", "k8", "k9", "k10", "k11", "k12", "k13",
          "k14", "constructor"] := by
  decide

/-- C11: after `clear()`, on the cache as created and on the cache holding
"wraps", `_cache` has no property and `_accessOrder` is empty, yet
`has("constructor")` is true and `get("constructor")` returns the function
inherited from `Object.prototype`, not `null`; the same holds for "toString"
and "__proto__". -/
theorem C11_cleared_cache_reports_inherited_names :
    menuPagesCache.clear._cache = [] ∧ menuPagesCache.clear._accessOrder = [] ∧
      (menuPagesCache.clear.has "constructor").1 = true ∧
      (menuPagesCache.clear.get "constructor").1 = some (JSValue.inherited "constructor") ∧
      (run menuPagesCache [.set "wraps" "w"]).clear = menuPagesCache ∧
      ((run menuPagesCache [.set "wraps" "w"]).clear.has "constructor").1 = true ∧
      ((run menuPagesCache [.set "wraps" "w"]).clear.get "constructor").1 =
        some (JSValue.inherited "constructor") ∧
      ((run menuPagesCache [.set "wraps" "w"]).clear.has "toString").1 = true ∧
      ((run menuPagesCache [.set "wraps" "w"]).clear.get "__proto__").1 =
        some (JSValue.inherited "__proto__") := by
  decide

/-- C12, as stated, fails: for the hash `#foo`, which is not a key of `routes`,
`loadContent` fetches `pages/home.html` but leaves the location hash `#foo`;
and for the hash `#constructor`, not a key of `routes` either, the value
inherited from `Object.prototype` is taken as the page. -/
theorem C12_unknown_hash_is_not_rewritten :
    routes.hasProp "foo" = false ∧
      (loadContent (homeShown "#foo")).2 =
        some { hash := "foo", page := RouteValue.path "pages/home.html" } ∧
      (loadContent (homeShown "#foo")).1.locationHash = "#foo" ∧
      (loadContent (homeShown "#foo")).1.locationHash ≠ "#home" ∧
      routes.hasProp "constructor" = false ∧
      (loadContent (homeShown "#constructor")).2 =
        some { hash := "constructor", page := RouteValue.inherited "constructor" } := by
  decide

/-- C12, amended: when the app element exists and the location hash, without its
first character, is neither a key of `routes` nor a property name inherited
from `Object.prototype`, `loadContent` issues the fetch of `pages/home.html`;
it rewrites the location hash to `#home` when that hash is empty and leaves a
non-empty hash as it is. -/
theorem C12_unknown_hash_resolves_to_home (s : Browser) (appElement : AppElement)
    (happ : s.app = some appElement)
    (hkey : routes.hasProp (s.locationHash.drop 1) = false)
    (hproto : s.locationHash.drop 1 ∉ objectPrototypeNames) :
    (loadContent s).2 =
        some { hash := requestedHash s.locationHash,
               page := RouteValue.path "pages/home.html" } ∧
      (s.locationHash.drop 1 = "" → (loadContent s).1.locationHash = "#home") ∧
      (s.locationHash.drop 1 ≠ "" → (loadContent s).1.locationHash = s.locationHash) := by
  have hpend : ∃ p, (loadContent s).2 = some p := by
    by_cases h0 : s.locationHash.drop 1 = ""
    · simp [loadContent, requestedHash, h0, happ, resolvePage_home, isMenuPage_home]
    · simp [loadContent, requestedHash, h0, happ,
        resolvePage_unknown _ hkey hproto, isMenuPage_unknown _ hkey]
  obtain ⟨p, hp⟩ := hpend
  obtain ⟨h1, h2, _, _, _, h6⟩ := loadContent_pending s p hp
  have hpage : p.page = RouteValue.path "pages/home.html" := by
    by_cases h0 : s.locationHash.drop 1 = ""
    · have hr : requestedHash s.locationHash = "home" := by simp [requestedHash, h0]
      rw [hr, resolvePage_home] at h2
      exact (Option.some.inj h2).symm
    · have hr : requestedHash s.locationHash = s.locationHash.drop 1 := by
        simp [requestedHash, h0]
      rw [hr, resolvePage_unknown _ hkey hproto] at h2
      exact (Option.some.inj h2).symm
  refine ⟨?_, ?_, ?_⟩
  · rw [hp]
    cases p with
    | mk ph pp =>
      simp only at h1 hpage
      rw [h1, hpage]
  · intro h0; rw [h6]; simp [h0]
  · intro h0; rw [h6]; simp [h0]

/-- C12 amended, at the page showing "home" whose hash became `#foo`. -/
theorem C12_unknown_hash_resolves_to_home_witness :
    (loadContent (homeShown "#foo")).2 =
        some { hash := requestedHash "#foo", page := RouteValue.path "pages/home.html" } ∧
      ("#foo".drop 1 = "" → (loadContent (homeShown "#foo")).1.locationHash = "#home") ∧
      ("#foo".drop 1 ≠ "" → (loadContent (homeShown "#foo")).1.locationHash = "#foo") :=
  C12_unknown_hash_resolves_to_home (homeShown "#foo")
    { currentPage := some "home", innerHTML := "<h1>Home</h1>" } rfl (by decide) (by decide)

/-- C13: when a fetch of `loadContent` succeeds with body `html`, the call
`menuPagesCache.set(token, html)` is made exactly when `isMenuPage(token)`
holds; after it `_cache` holds `html` under the token, `has(token)` is true,
and `get(token)` returns `html` when `html` is not empty.  For a token that is
not a menu page, `loadContent` makes no call on `menuPagesCache` at all,
neither before the fetch nor when it settles, and (the app element existing)
issues a fetch on every load. -/
theorem C13_cache_written_exactly_for_menu_pages (s settleState : Browser) (p : Pending)
    (html : String) (o : FetchOutcome) (appElement : AppElement)
    (happ : s.app = some appElement) :
    (isMenuPage p.hash = true →
        (loadContentSettled settleState p (.response true html)).cache =
            settleState.cache.set p.hash html ∧
          (loadContentSettled settleState p (.response true html)).cacheLog =
            settleState.cacheLog ++ [Call.set p.hash html] ∧
          (loadContentSettled settleState p (.response true html)).cache._cache.getProp
            p.hash = some html ∧
          ((loadContentSettled settleState p (.response true html)).cache.has p.hash).1 =
            true ∧
          (html ≠ "" →
            ((loadContentSettled settleState p (.response true html)).cache.get p.hash).1 =
              some (JSValue.str html))) ∧
      (isMenuPage p.hash = false →
        (loadContentSettled settleState p o).cache = settleState.cache ∧
          (loadContentSettled settleState p o).cacheLog = settleState.cacheLog) ∧
      (isMenuPage (requestedHash s.locationHash) = false →
        (∃ page, (loadContent s).2 =
            some { hash := requestedHash s.locationHash, page := page }) ∧
          (loadContent s).1.cache = s.cache ∧
          (loadContent s).1.cacheLog = s.cacheLog) := by
  refine ⟨fun hm => ?_, fun hm => ?_, fun hm => ?_⟩
  · have hc : (loadContentSettled settleState p (.response true html)).cache =
        settleState.cache.set p.hash html := by
      simp [loadContentSettled, hm]
    have hstored := settleState.cache.set_stores p.hash html (isMenuPage_ne_proto _ hm)
    refine ⟨hc, by simp [loadContentSettled, hm], ?_, ?_, ?_⟩
    · rw [hc]; exact hstored
    · rw [hc]
      simp [PageCache.has, JSObject.hasIn, JSObject.hasProp, hstored]
    · intro hne
      rw [hc, PageCache.get_hit _ p.hash html hstored hne]
  · cases o with
    | networkError => exact ⟨rfl, rfl⟩
    | timeoutAbort => exact ⟨rfl, rfl⟩
    | response ok body =>
      cases ok with
      | false => exact ⟨rfl, rfl⟩
      | true => simp [loadContentSettled, hm]
  · obtain ⟨page, hpage⟩ := resolvePage_isSome (requestedHash s.locationHash)
    have hpend : (loadContent s).2 =
        some { hash := requestedHash s.locationHash, page := page } := by
      by_cases h0 : s.locationHash.drop 1 = ""
      · have hr : requestedHash s.locationHash = "home" := by simp [requestedHash, h0]
        rw [hr] at hpage hm
        simp [loadContent, h0, hr, happ, hpage, hm]
      · have hr : requestedHash s.locationHash = s.locationHash.drop 1 := by
          simp [requestedHash, h0]
        rw [hr] at hpage hm
        simp [loadContent, h0, hr, happ, hpage, hm]
    obtain ⟨h1, _, h3, h4, _, _⟩ := loadContent_pending s _ hpend
    refine ⟨⟨page, hpend⟩, h3, ?_⟩
    rw [h4]
    simp [hm]

/-- C13 at the non-menu route "about" and the menu route "wraps". -/
theorem C13_cache_written_exactly_for_menu_pages_witness :
    (loadContentSettled aboutRequested
        { hash := "wraps", page := RouteValue.path "pages/wraps.html" }
        (.response true "<p>Wraps</p>")).cache = menuPagesCache.set "wraps" "<p>Wraps</p>" ∧
      (loadContentSettled aboutRequested
        { hash := "wraps", page := RouteValue.path "pages/wraps.html" }
        (.response true "<p>Wraps</p>")).cache._cache.getProp "wraps" = some "<p>Wraps</p>" ∧
      (loadContentSettled aboutRequested
        { hash := "about", page := RouteValue.path "pages/about.html" }
        (.response true "<p>About</p>")).cache = menuPagesCache ∧
      (loadContent (homeShown "#about")).2 =
        some { hash := "about", page := RouteValue.path "pages/about.html" } ∧
      (loadContent (homeShown "#about")).1.cacheLog = [] :=
  ⟨((C13_cache_written_exactly_for_menu_pages (homeShown "#about") aboutRequested
      { hash := "wraps", page := RouteValue.path "pages/wraps.html" } "<p>Wraps</p>"
      FetchOutcome.networkError _ rfl).1 (by decide)).1,
    ((C13_cache_written_exactly_for_menu_pages (homeShown "#about") aboutRequested
      { hash := "wraps", page := RouteValue.path "pages/wraps.html" } "<p>Wraps</p>"
      FetchOutcome.networkError _ rfl).1 (by decide)).2.2.1,
    by decide, by decide, by decide⟩

/-- C14: when the fetch issued by `loadContent` fails (network error, abort by
the timeout, or a response whose `ok` flag is false), the failure markup is
rendered into the app element and `menuPagesCache` is as it was before
`loadContent` was called; no `set` is made. -/
theorem C14_failed_fetch_leaves_cache (s : Browser) (p : Pending) (o : FetchOutcome)
    (hp : (loadContent s).2 = some p) (ho : o.failed = true) :
    (loadContentSettled (loadContent s).1 p o).cache = s.cache ∧
      (∀ k v, Call.set k v ∉ (loadContentSettled (loadContent s).1 p o).cacheLog.drop
        s.cacheLog.length) ∧
      (∃ a, (loadContentSettled (loadContent s).1 p o).app = some a ∧
        a.innerHTML = unableToLoadHTML) := by
  obtain ⟨_, _, h3, h4, ⟨a, _, h5⟩, _⟩ := loadContent_pending s p hp
  rw [loadContentSettled_failed _ p o ho]
  refine ⟨h3, ?_, ?_⟩
  · intro k v
    simp only [h4, List.drop_left]
    by_cases hm : isMenuPage p.hash = true <;> simp [hm]
  · exact ⟨_, by simp only [h5, Option.map_some']; rfl, rfl⟩

/-- C14 at the fetch of `pages/about.html`, aborted by the timeout. -/
theorem C14_failed_fetch_leaves_cache_witness :
    (loadContentSettled (loadContent (homeShown "#about")).1
        { hash := "about", page := RouteValue.path "pages/about.html" }
        FetchOutcome.timeoutAbort).cache = menuPagesCache ∧
      (loadContentSettled (loadContent (homeShown "#about")).1
        { hash := "about", page := RouteValue.path "pages/about.html" }
        FetchOutcome.timeoutAbort).app =
          some { currentPage := some "about", innerHTML := unableToLoadHTML } :=
  ⟨(C14_failed_fetch_leaves_cache (homeShown "#about")
      { hash := "about", page := RouteValue.path "pages/about.html" }
      FetchOutcome.timeoutAbort (by decide) (by decide)).1, rfl⟩

/-- C15, as stated, fails: the page shows "home" and the hash became `#about`;
`loadContent` runs and its fetch fails.  Before the call the page recorded as
current was "home", afterwards it is "about". -/
theorem C15_failed_load_changes_current_page :
    (homeShown "#about").app.map AppElement.currentPage = some (some "home") ∧
      (loadContent (homeShown "#about")).2 =
        some { hash := "about", page := RouteValue.path "pages/about.html" } ∧
      (loadContentSettled (loadContent (homeShown "#about")).1
        { hash := "about", page := RouteValue.path "pages/about.html" }
        FetchOutcome.networkError).app.map AppElement.currentPage = some (some "about") := by
  decide

/-- C15, amended: the failure callback changes neither the page recorded as
current nor the location hash; after a failed load they are as the synchronous
part of `loadContent` set them before the fetch: the recorded page is the
requested token, and the location hash is the one before the call, except
that an empty hash has become `#home`. -/
theorem C15_failed_load_keeps_requested_route (s : Browser) (p : Pending) (o : FetchOutcome)
    (hp : (loadContent s).2 = some p) (ho : o.failed = true) :
    (loadContentSettled (loadContent s).1 p o).app.map AppElement.currentPage =
        (loadContent s).1.app.map AppElement.currentPage ∧
      (loadContentSettled (loadContent s).1 p o).locationHash =
        (loadContent s).1.locationHash ∧
      (loadContentSettled (loadContent s).1 p o).app.map AppElement.currentPage =
        some (some (requestedHash s.locationHash)) ∧
      (loadContentSettled (loadContent s).1 p o).locationHash =
        (if s.locationHash.drop 1 = "" then "#home" else s.locationHash) := by
  obtain ⟨h1, _, _, _, ⟨a, _, h5⟩, h6⟩ := loadContent_pending s p hp
  rw [loadContentSettled_failed _ p o ho]
  simp [h5, h6, h1]

/-- C15 amended, at the failed load of "about" from the page showing "home". -/
theorem C15_failed_load_keeps_requested_route_witness :
    (loadContentSettled (loadContent (homeShown "#about")).1
        { hash := "about", page := RouteValue.path "pages/about.html" }
        FetchOutcome.networkError).app.map AppElement.currentPage =
          some (some (requestedHash "#about")) ∧
      (loadContentSettled (loadContent (homeShown "#about")).1
        { hash := "about", page := RouteValue.path "pages/about.html" }
        FetchOutcome.networkError).locationHash = "#about" :=
  ⟨(C15_failed_load_keeps_requested_route (homeShown "#about")
      { hash := "about", page := RouteValue.path "pages/about.html" }
      FetchOutcome.networkError (by decide) (by decide)).2.2.1, by decide⟩

/-- C16, as stated, fails for the token "home": leaving the page "home" at
scroll offset 120 saves "120" under `scrollPos_home`, yet
`restoreScrollPosition("home")` scrolls to 0. -/
theorem C16_home_ignores_saved_offset :
    (loadContent (homeShown "#about")).1.sessionStorage = [("scrollPos_home", "120")] ∧
      restoreScrollPosition (loadContent (homeShown "#about")).1.sessionStorage "home" =
        some (ScrollEffect.scrollTo 0) := by
  decide

/-- C16, amended: for every token other than "home" with a non-empty value
saved under `scrollPos_` + token, `restoreScrollPosition(token)` requests, from
a 50 ms timer, a scroll to `parseInt` of that value; with no value saved it
requests no scroll; for "home" it scrolls to 0 at once, saved value or not. -/
theorem C16_restore_scrolls_to_saved_offset (sessionStorage : JSObject) (token : String)
    (hne : token ≠ "home") :
    (∀ saved, sessionStorage.getProp ("scrollPos_" ++ token) = some saved → saved ≠ "" →
        restoreScrollPosition sessionStorage token =
          some (ScrollEffect.scrollToParsedAfter 50 saved)) ∧
      (sessionStorage.getProp ("scrollPos_" ++ token) = none →
        restoreScrollPosition sessionStorage token = none) ∧
      restoreScrollPosition sessionStorage "home" = some (ScrollEffect.scrollTo 0) := by
  refine ⟨fun saved hs hv => ?_, fun hs => ?_, ?_⟩
  · simp [restoreScrollPosition, hne, hs, hv]
  · simp [restoreScrollPosition, hne, hs]
  · simp [restoreScrollPosition]

/-- C16 amended, at the token "wraps" with "340" saved. -/
theorem C16_restore_scrolls_to_saved_offset_witness :
    restoreScrollPosition [("scrollPos_wraps", "340")] "wraps" =
        some (ScrollEffect.scrollToParsedAfter 50 "340") ∧
      restoreScrollPosition [("scrollPos_wraps", "340")] "pasta" = none :=
  ⟨(C16_restore_scrolls_to_saved_offset [("scrollPos_wraps", "340")] "wraps"
      (by decide)).1 "340" (by decide) (by decide),
    by decide⟩

/-- C17, as stated, fails: the fetch for `#about` is in flight when the hash
changes to `#contact` and a second fetch starts.  The fetch for "contact"
completes first, the one for "about" afterwards: the app element then shows
the content of "about", while the current page and the hash are "contact". -/
theorem C17_stale_fetch_overwrites_later_navigation :
    (loadContent (homeShown "#about")).2 =
        some { hash := "about", page := RouteValue.path "pages/about.html" } ∧
      (loadContent { aboutRequested with locationHash := "#contact" }).2 =
        some { hash := "contact", page := RouteValue.path "pages/contact.html" } ∧
      (loadContentSettled
        (loadContentSettled contactRequested
          { hash := "contact", page := RouteValue.path "pages/contact.html" }
          (.response true "<p>Contact</p>"))
        { hash := "about", page := RouteValue.path "pages/about.html" }
        (.response true "<p>About</p>")).app =
          some { currentPage := some "contact", innerHTML := "<p>About</p>" } ∧
      (loadContentSettled
        (loadContentSettled contactRequested
          { hash := "contact", page := RouteValue.path "pages/contact.html" }
          (.response true "<p>Contact</p>"))
        { hash := "about", page := RouteValue.path "pages/about.html" }
        (.response true "<p>About</p>")).locationHash = "#contact" := by
  decide

/-- C17, amended: the content displayed after two fetches have completed is that
of the fetch completing last, whichever navigation it belongs to: the body of
`B` when the fetch of `B` completes after that of `A`, and the body of `A`
when the fetch of `A` completes after that of `B`. -/
theorem C17_last_completed_fetch_is_displayed (s : Browser) (pA pB : Pending)
    (htmlA htmlB : String) :
    (loadContentSettled (loadContentSettled s pA (.response true htmlA)) pB
        (.response true htmlB)).app.map AppElement.innerHTML = s.app.map (fun _ => htmlB) ∧
      (loadContentSettled (loadContentSettled s pB (.response true htmlB)) pA
        (.response true htmlA)).app.map AppElement.innerHTML = s.app.map (fun _ => htmlA) := by
  have key : ∀ (t : Browser) (p : Pending) (html : String),
      (loadContentSettled t p (.response true html)).app =
        t.app.map (fun a => { a with innerHTML := html }) := by
    intro t p html
    by_cases hm : isMenuPage p.hash = true <;> simp [loadContentSettled, hm]
  constructor
  · rw [key, key]; cases s.app <;> rfl
  · rw [key, key]; cases s.app <;> rfl

/-! ## Properties of the service worker -/

/-- The handler on an intercepted request that is not a navigation. -/
theorem onFetch_runtime (w : ServiceWorker) (request : Request) (network : NetworkResult)
    (hget : request.method = "GET") (horigin : request.url.origin = w.locationOrigin)
    (hmode : request.mode ≠ "navigate") :
    onFetch w request network =
      (if (decide (request.url.search ≠ "") && includes request.url.search "v=") ||
            (cachesMatch w.caches request.url.cacheKey).isNone then
        { respondWith := some
            (match network with
              | .resolved networkResponse => some networkResponse
              | .rejected =>
                match cachesMatch w.caches request.url.cacheKey with
                | none =>
                  if includes request.url.href ".html" then
                    cachesMatch w.caches (w.baseURL ++ "index.html")
                  else if isImageURL request.url.href then some transparentPlaceholder
                  else none
                | some _ => none),
          caches :=
            (match network with
              | .resolved networkResponse =>
                if networkResponse.status = 200 then
                  openAndPut w.caches w.CACHE_NAME request.url.cacheKey networkResponse
                else w.caches
              | .rejected => w.caches) }
      else
        { respondWith := some (cachesMatch w.caches request.url.cacheKey),
          caches :=
            (match network with
              | .resolved networkResponse =>
                if networkResponse.status = 200 then
                  openAndPut w.caches w.CACHE_NAME request.url.cacheKey networkResponse
                else w.caches
              | .rejected => w.caches) }) := by
  unfold onFetch
  simp only [hget, horigin, hmode, ne_eq, not_true_eq_false, if_false]
  cases network with
  | rejected =>
    cases hc : cachesMatch w.caches request.url.cacheKey with
    | none =>
      by_cases h1 : includes request.url.href ".html" = true
      · simp [h1]
      · by_cases h2 : isImageURL request.url.href = true
        · simp [h1, h2]
        · simp [h1, h2]
    | some r => simp
  | resolved networkResponse =>
    by_cases hs : networkResponse.status = 200 <;> simp [hs]

/-- C18, as stated, fails: with an empty persistent store a same-origin GET
navigation whose network fetch fails is answered with `undefined`, the result
of `caches.match('./index.html')`; and a POST navigation is not answered by
the handler at all. -/
theorem C18_empty_store_gives_no_response :
    (onFetch emptyStoreWorker (getRequest "navigate" "/" "") NetworkResult.rejected).respondWith =
        some none ∧
      (onFetch installedWorker
        { method := "POST", mode := "navigate",
          url := { origin := "https://blaze.example", pathname := "/contact.php",
                   search := "", hash := "" } }
        NetworkResult.rejected).respondWith = none := by
  decide

/-- C18, amended: for every same-origin GET navigation request whose network
fetch fails, the handler answers with the result of
`caches.match('./index.html')`: the fallback document when a cache holds it. -/
theorem C18_failed_navigation_serves_cached_index (w : ServiceWorker) (request : Request)
    (fallback : Response)
    (hget : request.method = "GET") (horigin : request.url.origin = w.locationOrigin)
    (hmode : request.mode = "navigate") :
    (onFetch w request NetworkResult.rejected).respondWith =
        some (cachesMatch w.caches (w.baseURL ++ "index.html")) ∧
      (onFetch w request NetworkResult.rejected).caches = w.caches ∧
      (cachesMatch w.caches (w.baseURL ++ "index.html") = some fallback →
        (onFetch w request NetworkResult.rejected).respondWith = some (some fallback)) := by
  have e : onFetch w request NetworkResult.rejected =
      { respondWith := some (cachesMatch w.caches (w.baseURL ++ "index.html")),
        caches := w.caches } := by
    simp [onFetch, hget, horigin, hmode]
  rw [e]
  exact ⟨rfl, rfl, fun h => by rw [h]⟩

/-- C18 amended, at the installed worker and a failed navigation to `/`. -/
theorem C18_failed_navigation_serves_cached_index_witness :
    (onFetch installedWorker (getRequest "navigate" "/" "") NetworkResult.rejected).respondWith =
      some (some indexDocument) :=
  (C18_failed_navigation_serves_cached_index installedWorker (getRequest "navigate" "/" "")
    indexDocument (by decide) (by decide) (by decide)).2.2 (by decide)

/-- C19, as stated, fails: `styles.css?v=4.19` has a persisted copy, but its
query contains `v=`, so the handler answers with the network response, not
with the persisted copy. -/
theorem C19_versioned_request_gets_network_response :
    cachesMatch installedWorker.caches (getRequest "no-cors" "/styles.css" "?v=4.19").url.cacheKey =
        some { status := 200, headers := [("Content-Type", "text/css")], body := "old" } ∧
      (onFetch installedWorker (getRequest "no-cors" "/styles.css" "?v=4.19")
        (NetworkResult.resolved
          { status := 200, headers := [("Content-Type", "text/css")], body := "new" })).respondWith =
        some (some { status := 200, headers := [("Content-Type", "text/css")], body := "new" }) := by
  decide

/-- C19, amended: for every same-origin GET request that is not a navigation,
has a persisted copy and whose query does not contain `v=`, the handler
answers with the persisted copy whatever the outcome of the network fetch,
and a network response with status 200 is put into the current cache; when
the query contains `v=` and the network fetch succeeds, the handler answers
with the network response. -/
theorem C19_cached_copy_is_served (w : ServiceWorker) (request : Request)
    (network : NetworkResult) (cached networkResponse : Response)
    (hget : request.method = "GET") (horigin : request.url.origin = w.locationOrigin)
    (hmode : request.mode ≠ "navigate")
    (hcached : cachesMatch w.caches request.url.cacheKey = some cached) :
    ((decide (request.url.search ≠ "") && includes request.url.search "v=") = false →
        (onFetch w request network).respondWith = some (some cached)) ∧
      ((decide (request.url.search ≠ "") && includes request.url.search "v=") = true →
        (onFetch w request (NetworkResult.resolved networkResponse)).respondWith =
          some (some networkResponse)) ∧
      (networkResponse.status = 200 →
        (onFetch w request (NetworkResult.resolved networkResponse)).caches =
          openAndPut w.caches w.CACHE_NAME request.url.cacheKey networkResponse) ∧
      (networkResponse.status ≠ 200 →
        (onFetch w request (NetworkResult.resolved networkResponse)).caches = w.caches) ∧
      (onFetch w request NetworkResult.rejected).caches = w.caches := by
  refine ⟨fun hv => ?_, fun hv => ?_, fun hs => ?_, fun hs => ?_, ?_⟩
  · rw [onFetch_runtime w request network hget horigin hmode, hv, hcached]
    rfl
  · rw [onFetch_runtime w request _ hget horigin hmode, hv]
    rfl
  · rw [onFetch_runtime w request _ hget horigin hmode]
    split <;> simp [hs]
  · rw [onFetch_runtime w request _ hget horigin hmode]
    split <;> simp [hs]
  · rw [onFetch_runtime w request _ hget horigin hmode]
    split <;> rfl

/-- C19 amended, at `script.js`, persisted and requested without a query, with
the network down. -/
theorem C19_cached_copy_is_served_witness :
    (onFetch installedWorker (getRequest "no-cors" "/script.js" "")
        NetworkResult.rejected).respondWith =
      some (some { status := 200, headers := [("Content-Type", "text/javascript")],
                   body := "old" }) :=
  (C19_cached_copy_is_served installedWorker (getRequest "no-cors" "/script.js" "")
    NetworkResult.rejected
    { status := 200, headers := [("Content-Type", "text/javascript")], body := "old" }
    indexDocument (by decide) (by decide) (by decide) (by decide)).1 (by decide)

/-- C20, as stated, fails: the URL `/assets/menu.html.png` ends in `.png` and has
no persisted copy; its fetch fails and the handler answers with the fallback
document, not with the image placeholder, because the URL contains `.html`.
And for the request of `/index.html` itself on an empty store the answer is
`undefined`. -/
theorem C20_image_url_containing_html_gets_fallback :
    isImageURL (getRequest "no-cors" "/assets/menu.html.png" "").url.href = true ∧
      cachesMatch installedWorker.caches
        (getRequest "no-cors" "/assets/menu.html.png" "").url.cacheKey = none ∧
      (onFetch installedWorker (getRequest "no-cors" "/assets/menu.html.png" "")
        NetworkResult.rejected).respondWith = some (some indexDocument) ∧
      (onFetch emptyStoreWorker (getRequest "cors" "/index.html" "")
        NetworkResult.rejected).respondWith = some none := by
  decide

/-- C20, amended: for every same-origin GET request that is not a navigation,
has no persisted copy and whose network fetch fails, the handler answers with
the result of `caches.match('./index.html')` when the URL contains `.html`,
and with the empty status-200 `image/svg+xml` response when the URL does not
contain `.html` and ends in `.jpg`, `.jpeg`, `.png`, `.gif` or `.svg`; the
cache storage is unchanged. -/
theorem C20_offline_fallbacks (w : ServiceWorker) (request : Request)
    (hget : request.method = "GET") (horigin : request.url.origin = w.locationOrigin)
    (hmode : request.mode ≠ "navigate")
    (hcached : cachesMatch w.caches request.url.cacheKey = none) :
    (includes request.url.href ".html" = true →
        (onFetch w request NetworkResult.rejected).respondWith =
          some (cachesMatch w.caches (w.baseURL ++ "index.html"))) ∧
      (includes request.url.href ".html" = false → isImageURL request.url.href = true →
        (onFetch w request NetworkResult.rejected).respondWith =
          some (some transparentPlaceholder)) ∧
      transparentPlaceholder.status = 200 ∧ transparentPlaceholder.body = "" ∧
      ("Content-Type", "image/svg+xml") ∈ transparentPlaceholder.headers ∧
      (onFetch w request NetworkResult.rejected).caches = w.caches := by
  rw [onFetch_runtime w request _ hget horigin hmode, hcached]
  simp only [Option.isNone_none, Bool.or_true, if_true]
  refine ⟨fun h => ?_, fun h1 h2 => ?_, rfl, rfl, by decide, trivial⟩
  · rw [h]; rfl
  · rw [h1, h2]; rfl

/-- C20 amended, at two requests on the installed worker with the network down:
a page fragment and a photo. -/
theorem C20_offline_fallbacks_witness :
    (onFetch installedWorker (getRequest "cors" "/pages/wraps.html" "")
        NetworkResult.rejected).respondWith = some (some indexDocument) ∧
      (onFetch installedWorker (getRequest "no-cors" "/assets/burger.png" "")
        NetworkResult.rejected).respondWith = some (some transparentPlaceholder) :=
  ⟨(C20_offline_fallbacks installedWorker (getRequest "cors" "/pages/wraps.html" "")
      (by decide) (by decide) (by decide) (by decide)).1 (by decide),
    (C20_offline_fallbacks installedWorker (getRequest "no-cors" "/assets/burger.png" "")
      (by decide) (by decide) (by decide) (by decide)).2.1 (by decide) (by decide)⟩

/-! ## Properties of activation and version update -/

theorem startsWith_cacheNameOf (v : String) :
    startsWith (cacheNameOf v) appCacheStem = true := by
  have h : (cacheNameOf v).data = appCacheStem.data ++ ('v' :: v.data) := by
    simp only [cacheNameOf, String.data_append]
    rfl
  simp only [startsWith, h, List.isPrefixOf_iff_prefix]
  exact List.prefix_append _ _

theorem cachesOpen_of_not_mem (cs : CacheStorage) (name : String)
    (h : name ∉ cs.map Prod.fst) : cachesOpen cs name = cs ++ [(name, [])] := by
  induction cs with
  | nil => rfl
  | cons e rest ih =>
    obtain ⟨n, c⟩ := e
    simp only [List.map_cons, List.mem_cons, not_or] at h
    have hn : ¬ n = name := fun e => h.1 e.symm
    simp [cachesOpen, hn, ih h.2]

theorem openAndPut_append (cs : CacheStorage) (name key : String) (r : Response) (c : Cache)
    (h : name ∉ cs.map Prod.fst) :
    openAndPut (cs ++ [(name, c)]) name key r = cs ++ [(name, cachePut c key r)] := by
  induction cs with
  | nil => simp [openAndPut]
  | cons e rest ih =>
    obtain ⟨n, c'⟩ := e
    simp only [List.map_cons, List.mem_cons, not_or] at h
    have hn : ¬ n = name := fun e => h.1 e.symm
    simp [openAndPut, hn, ih h.2]

theorem foldl_openAndPut_append (entries : List (String × Response)) (cs : CacheStorage)
    (name : String) (h : name ∉ cs.map Prod.fst) :
    ∀ c : Cache,
      entries.foldl (fun st e => openAndPut st name e.1 e.2) (cs ++ [(name, c)]) =
        cs ++ [(name, entries.foldl (fun c' e => cachePut c' e.1 e.2) c)] := by
  induction entries with
  | nil => intro c; rfl
  | cons e rest ih =>
    intro c
    simp only [List.foldl_cons]
    rw [openAndPut_append cs name e.1 e.2 c h, ih]

theorem cacheMatch_append (c1 c2 : Cache) (key : String) :
    cacheMatch (c1 ++ c2) key =
      match cacheMatch c1 key with
      | some r => some r
      | none => cacheMatch c2 key := by
  induction c1 with
  | nil => rfl
  | cons e rest ih =>
    obtain ⟨k, r⟩ := e
    by_cases hk : k = key
    · simp [cacheMatch, hk]
    · simp [cacheMatch, hk, ih]

theorem cacheMatch_filter_ne (c : Cache) (key key' : String) :
    cacheMatch (c.filter (fun e => decide (e.1 ≠ key))) key' =
      if key' = key then none else cacheMatch c key' := by
  induction c with
  | nil => simp [cacheMatch]
  | cons e rest ih =>
    obtain ⟨k, r⟩ := e
    simp only [ne_eq, decide_not] at ih ⊢
    by_cases hk' : key' = key
    · simp only [hk', if_true] at ih ⊢
      by_cases hk : k = key
      · simp [List.filter_cons, hk, ih]
      · simp [List.filter_cons, hk, cacheMatch, ih]
    · simp only [hk', if_false] at ih ⊢
      by_cases hk : k = key
      · have hk2 : ¬ key = key' := fun e => hk' e.symm
        simp [List.filter_cons, hk, cacheMatch, ih, hk2]
      · by_cases hkk : k = key'
        · subst hkk
          simp [List.filter_cons, hk, cacheMatch]
        · simp [List.filter_cons, hk, cacheMatch, hkk, ih]

theorem cacheMatch_cachePut (c : Cache) (key key' : String) (r : Response) :
    cacheMatch (cachePut c key r) key' =
      if key' = key then some r else cacheMatch c key' := by
  unfold cachePut
  rw [cacheMatch_append, cacheMatch_filter_ne]
  by_cases hk : key' = key
  · subst hk; simp [cacheMatch]
  · have hk2 : ¬ key = key' := fun e => hk e.symm
    simp only [hk, if_false]
    cases h : cacheMatch c key' with
    | none => simp [cacheMatch, hk2]
    | some v => rfl

theorem mem_cachePut (c : Cache) (key : String) (r : Response) (e : String × Response)
    (h : e ∈ cachePut c key r) : e ∈ c ∨ e = (key, r) := by
  simp only [cachePut, List.mem_append, List.mem_filter, List.mem_singleton] at h
  rcases h with h | h
  · exact Or.inl h.1
  · exact Or.inr h

/-- When `cache.addAll` succeeds, the entries are the urls, in order, each with
the `ok` response of its fetch. -/
theorem addAllFetch_some (network : String → Option Response) (urls : List String) :
    ∀ entries, addAllFetch network urls = some entries →
      entries.map Prod.fst = urls ∧ ∀ e ∈ entries, network e.1 = some e.2 := by
  induction urls with
  | nil =>
    intro entries h
    simp only [addAllFetch, Option.some.injEq] at h
    subst h
    simp
  | cons url rest ih =>
    intro entries h
    unfold addAllFetch at h
    cases hn : network url with
    | none => simp [hn] at h
    | some r =>
      by_cases hok : r.ok = true
      · cases hrest : addAllFetch network rest with
        | none => simp [hn, hok, hrest] at h
        | some es =>
          simp only [hn, hok, hrest, if_true, Option.some.injEq] at h
          subst h
          obtain ⟨h1, h2⟩ := ih es hrest
          refine ⟨by simp [h1], ?_⟩
          intro e he
          rcases List.mem_cons.1 he with rfl | he
          · exact hn
          · exact h2 e he
      · simp [hn, hok] at h

theorem addAllFetch_isSome (network : String → Option Response) (urls : List String)
    (h : ∀ url ∈ urls, ∃ r, network url = some r ∧ r.ok = true) :
    ∃ entries, addAllFetch network urls = some entries := by
  induction urls with
  | nil => exact ⟨[], rfl⟩
  | cons url rest ih =>
    obtain ⟨r, hr, hok⟩ := h url (List.mem_cons_self _ _)
    obtain ⟨es, hes⟩ := ih (fun u hu => h u (List.mem_cons_of_mem _ hu))
    exact ⟨(url, r) :: es, by simp [addAllFetch, hr, hok, hes]⟩

/-- The cache built by putting the entries one after the other holds, for every
url among them, the response of its fetch, and nothing beside the entries
and what it held before. -/
theorem foldl_cachePut_spec (network : String → Option Response)
    (entries : List (String × Response)) (hnet : ∀ e ∈ entries, network e.1 = some e.2) :
    ∀ c : Cache,
      (∀ key ∈ entries.map Prod.fst,
        cacheMatch (entries.foldl (fun c' e => cachePut c' e.1 e.2) c) key = network key) ∧
      (∀ e ∈ entries.foldl (fun c' e => cachePut c' e.1 e.2) c, e ∈ c ∨ e ∈ entries) := by
  induction entries using List.reverseRecOn with
  | nil => intro c; exact ⟨by simp, fun e he => Or.inl he⟩
  | append_singleton es last ih =>
    intro c
    have hnet' : ∀ e ∈ es, network e.1 = some e.2 :=
      fun e he => hnet e (List.mem_append_left _ he)
    obtain ⟨h1, h2⟩ := ih hnet' c
    simp only [List.foldl_append, List.foldl_cons, List.foldl_nil]
    refine ⟨fun key hkey => ?_, fun e he => ?_⟩
    · rw [cacheMatch_cachePut]
      by_cases hk : key = last.1
      · simp only [hk, if_true]
        exact (hnet last (by simp)).symm
      · simp only [hk, if_false]
        apply h1
        simp only [List.map_append, List.map_cons, List.map_nil, List.mem_append,
          List.mem_singleton] at hkey
        rcases hkey with hkey | hkey
        · exact hkey
        · exact absurd hkey hk
    · rcases mem_cachePut _ _ _ _ he with he | he
      · rcases h2 e he with h | h
        · exact Or.inl h
        · exact Or.inr (List.mem_append_left _ h)
      · exact Or.inr (by simp [he])

theorem not_mem_names_filter_stem (cs : CacheStorage) (name : String)
    (hname : startsWith name appCacheStem = true) :
    name ∉ (cs.filter (fun e => !(startsWith e.1 appCacheStem))).map Prod.fst := by
  intro hmem
  obtain ⟨e, he, hn⟩ := List.mem_map.1 hmem
  rw [List.mem_filter, hn, hname] at he
  exact absurd he.2 (by decide)

/-- The outcome of `clearCachesAndRecache` when `cache.addAll` succeeds and
`CACHE_NAME` starts with the stem. -/
theorem clearCachesAndRecache_success (cacheVersion : String) (w : ServiceWorker)
    (network : String → Option Response) (clients : List String)
    (entries : List (String × Response))
    (hname : startsWith w.CACHE_NAME appCacheStem = true)
    (hadd : addAllFetch network (CORE_ASSETS.map (resolveURL w)) = some entries) :
    clearCachesAndRecache cacheVersion w network clients =
      ({ w with caches :=
          w.caches.filter (fun e => !(startsWith e.1 appCacheStem)) ++
            [(w.CACHE_NAME, entries.foldl (fun c e => cachePut c e.1 e.2) [])] },
        true,
        clients.map (fun client =>
          (client, [("type", "CACHE_UPDATED"), ("version", cacheVersion)]))) := by
  have hn := not_mem_names_filter_stem w.caches w.CACHE_NAME hname
  simp only [clearCachesAndRecache, hadd]
  rw [cachesOpen_of_not_mem _ _ hn, foldl_openAndPut_append _ _ _ hn]

/-! ## Properties of the version gate -/

theorem JSObject.getProp_setProp_of_ne (o : JSObject) (k v k' : String) (h : k' ≠ k) :
    (o.setProp k v).getProp k' = o.getProp k' := by
  induction o with
  | nil =>
    have h' : ¬ k = k' := fun e => h e.symm
    simp [JSObject.setProp, JSObject.getProp, h']
  | cons p rest ih =>
    obtain ⟨k0, v0⟩ := p
    by_cases hk : k0 = k
    · have h' : ¬ k = k' := fun e => h e.symm
      have h0 : ¬ k0 = k' := fun e => h (e.symm.trans hk)
      simp [JSObject.setProp, JSObject.getProp, hk, h', h0]
    · by_cases hk0 : k0 = k'
      · subst hk0
        simp [JSObject.setProp, JSObject.getProp, hk]
      · simp [JSObject.setProp, JSObject.getProp, hk, hk0, ih]

/-- Deleting the listed keys one after the other, except those equal to `keep`,
leaves the properties whose key is `keep` or is not listed. -/
theorem foldl_deleteProp_except (keep : String) (ks : List String) :
    ∀ o : JSObject,
      ks.foldl (fun st key => if key ≠ keep then JSObject.deleteProp st key else st) o =
        o.filter (fun p => decide (p.1 = keep ∨ p.1 ∉ ks)) := by
  induction ks with
  | nil => intro o; simp
  | cons k rest ih =>
    intro o
    simp only [List.foldl_cons]
    rw [ih]
    by_cases hk : k = keep
    · simp only [hk, ne_eq, not_true_eq_false, if_false]
      apply List.filter_congr
      intro p _
      by_cases hp : p.1 = keep <;> simp [hp]
    · simp only [hk, ne_eq, not_false_eq_true, if_true, JSObject.deleteProp, List.filter_filter]
      apply List.filter_congr
      intro p _
      have hk' : ¬ keep = k := fun e => hk e.symm
      by_cases hp : p.1 = keep
      · simp [hp, hk']
      · by_cases hpk : p.1 = k <;> simp [hp, hpk, hk]

/-- Deleting the listed keys one after the other leaves the properties whose key
is not listed. -/
theorem foldl_deleteProp_all (ks : List String) :
    ∀ o : JSObject,
      ks.foldl (fun st key => JSObject.deleteProp st key) o =
        o.filter (fun p => decide (p.1 ∉ ks)) := by
  induction ks with
  | nil => intro o; simp
  | cons k rest ih =>
    intro o
    simp only [List.foldl_cons]
    rw [ih]
    simp only [JSObject.deleteProp, List.filter_filter]
    apply List.filter_congr
    intro p _
    by_cases hpk : p.1 = k <;> simp [hpk]

theorem filter_key_eq_of_nodup (o : JSObject) (k v : String) (hd : o.keys.Nodup)
    (hg : o.getProp k = some v) :
    o.filter (fun p => decide (p.1 = k)) = [(k, v)] := by
  induction o with
  | nil => simp [JSObject.getProp] at hg
  | cons p rest ih =>
    obtain ⟨k0, v0⟩ := p
    simp only [JSObject.keys, List.map_cons, List.nodup_cons] at hd
    by_cases hk : k0 = k
    · subst hk
      simp only [JSObject.getProp, if_true, Option.some.injEq] at hg
      subst hg
      have hnone : rest.filter (fun p => decide (p.1 = k0)) = [] := by
        rw [List.filter_eq_nil_iff]
        intro p hp
        have : p.1 ≠ k0 := fun e => hd.1 (e ▸ List.mem_map_of_mem Prod.fst hp)
        simpa using this
      simp [List.filter_cons, hnone]
    · simp only [JSObject.getProp, hk, if_false] at hg
      simp [List.filter_cons, hk, ih hd.2 hg]

/-- Reading a key from the properties kept by a test on the key. -/
theorem JSObject.getProp_filter (o : JSObject) (q : String → Bool) (k : String) :
    JSObject.getProp (o.filter (fun p => q p.1)) k = if q k then o.getProp k else none := by
  induction o with
  | nil => simp [JSObject.getProp]
  | cons p rest ih =>
    obtain ⟨k0, v0⟩ := p
    by_cases hk : k0 = k
    · subst hk
      by_cases hq : q k0 = true
      · simp [List.filter_cons, hq, JSObject.getProp]
      · have hq' : q k0 = false := by simpa using hq
        simp [List.filter_cons, hq', ih]
    · by_cases hq : q k0 = true
      · simp [List.filter_cons, hq, JSObject.getProp, hk, ih]
      · have hq' : q k0 = false := by simpa using hq
        simp [List.filter_cons, hq', JSObject.getProp, hk, ih]

/-- The run of `version.js` when a non-empty stored token differs from
`APP_VERSION`. -/
theorem versionScript_changed (s : PageStores) (t : String)
    (ht : s.localStorage.getProp "blazeVersion" = some t) (hne : t ≠ "")
    (hdiff : t ≠ APP_VERSION) :
    versionScript s =
      { localStorage :=
          (s.localStorage.setProp "blazeVersion" APP_VERSION).filter
            (fun p => decide (p.1 = "blazeVersion" ∨ p.1 ∈ storagePrototypeNames)),
        sessionStorage :=
          s.sessionStorage.filter (fun p => decide (p.1 ∈ storagePrototypeNames)),
        posted :=
          if s.controller then [[("type", "VERSION_UPDATE"), ("version", APP_VERSION)]]
          else [] } := by
  have h1 : truthyItem (some t) = true := by simp [truthyItem, hne]
  have h2 : decide (some t ≠ some APP_VERSION) = true := by simp [hdiff]
  simp only [versionScript, ht, h1, h2, Bool.not_true, Bool.false_or, Bool.and_self, if_true]
  rw [foldl_deleteProp_except, foldl_deleteProp_all]
  congr 1
  · apply List.filter_congr
    intro p hp
    have : p.1 ∈ JSObject.keys (JSObject.setProp s.localStorage "blazeVersion" APP_VERSION) :=
      List.mem_map_of_mem Prod.fst hp
    simp [storageKeys, this]
  · apply List.filter_congr
    intro p hp
    have : p.1 ∈ JSObject.keys s.sessionStorage := List.mem_map_of_mem Prod.fst hp
    simp [storageKeys, this]

/-- The run of `version.js` when the stored token is missing or empty. -/
theorem versionScript_first_run (s : PageStores)
    (h : truthyItem (s.localStorage.getProp "blazeVersion") = false) :
    versionScript s =
      { localStorage := s.localStorage.setProp "blazeVersion" APP_VERSION,
        sessionStorage := s.sessionStorage, posted := [] } := by
  simp [versionScript, h]

/-- The run of `version.js` when the stored token is `APP_VERSION`. -/
theorem versionScript_unchanged (s : PageStores)
    (h : s.localStorage.getProp "blazeVersion" = some APP_VERSION) :
    versionScript s =
      { localStorage := s.localStorage, sessionStorage := s.sessionStorage, posted := [] } := by
  have h1 : truthyItem (some APP_VERSION) = true := by decide
  simp [versionScript, h, h1]

/-! ## Properties of asset preloading -/

theorem assetsToPreload_on_categories :
    ∀ hash ∈ JSObject.keys menuAssets, assetsToPreload hash = specAssetsToPreload hash := by
  decide

/-- For every hash that is not a property name inherited from
`Object.prototype`, `preloadAssets` builds the list that the specification
describes. -/
theorem preloadAssets_eq_spec (locationHash : String)
    (h : requestedHash locationHash ∉ objectPrototypeNames) :
    preloadAssets locationHash = specAssetsToPreload (requestedHash locationHash) := by
  unfold preloadAssets
  by_cases hk : requestedHash locationHash ∈ JSObject.keys menuAssets
  · exact assetsToPreload_on_categories _ hk
  · have hg : menuAssets.getProp (requestedHash locationHash) = none :=
      (JSObject.getProp_eq_none_iff _ _).2 hk
    have hu : menuAssetsGet (requestedHash locationHash) = PreloadSrc.undefined := by
      simp [menuAssetsGet, hg, h]
    unfold assetsToPreload specAssetsToPreload
    simp only [hu, PreloadSrc.truthy, hk, if_false, Bool.false_eq_true]
    by_cases hm : requestedHash locationHash = "menu"
    · simp only [hm, if_true]
      decide
    · simp only [hm, if_false]

/-- C21: the `fetch` listener calls `respondWith` exactly for the requests whose
method is GET and whose URL origin is the origin of the worker; for every other
request it calls no `respondWith`, leaves the cache storage as it is and makes
no call on it. -/
theorem C21_only_same_origin_get_is_answered (w : ServiceWorker) (request : Request)
    (network : NetworkResult) :
    ((onFetch w request network).respondWith ≠ none ↔
        (request.method = "GET" ∧ request.url.origin = w.locationOrigin)) ∧
      ((request.method ≠ "GET" ∨ request.url.origin ≠ w.locationOrigin) →
        (onFetch w request network).respondWith = none ∧
          (onFetch w request network).caches = w.caches ∧
          onFetchCacheOps w request network = []) := by
  by_cases hget : request.method = "GET"
  · by_cases horigin : request.url.origin = w.locationOrigin
    · refine ⟨⟨fun _ => ⟨hget, horigin⟩, fun _ => ?_⟩, fun h => ?_⟩
      · by_cases hmode : request.mode = "navigate"
        · cases network <;> simp [onFetch, hget, horigin, hmode]
        · rw [onFetch_runtime w request network hget horigin hmode]
          split <;> simp
      · rcases h with h | h
        · exact absurd hget h
        · exact absurd horigin h
    · refine ⟨⟨fun h => ?_, fun h => absurd h.2 horigin⟩, fun _ => ?_⟩
      · simp [onFetch, hget, horigin] at h
      · simp [onFetch, onFetchCacheOps, hget, horigin]
  · refine ⟨⟨fun h => ?_, fun h => absurd h.1 hget⟩, fun _ => ?_⟩
    · simp [onFetch, hget] at h
    · simp [onFetch, onFetchCacheOps, hget]

/-- C21 at a same-origin POST and at a cross-origin GET on the installed worker. -/
theorem C21_only_same_origin_get_is_answered_witness :
    ((onFetch installedWorker
        { method := "POST", mode := "cors",
          url := { origin := "https://blaze.example", pathname := "/contact.php",
                   search := "", hash := "" } }
        NetworkResult.rejected).respondWith = none ∧
      (onFetch installedWorker
        { method := "POST", mode := "cors",
          url := { origin := "https://blaze.example", pathname := "/contact.php",
                   search := "", hash := "" } }
        NetworkResult.rejected).caches = installedWorker.caches ∧
      onFetchCacheOps installedWorker
        { method := "POST", mode := "cors",
          url := { origin := "https://blaze.example", pathname := "/contact.php",
                   search := "", hash := "" } }
        NetworkResult.rejected = []) ∧
      (onFetch installedWorker
        { method := "GET", mode := "no-cors",
          url := { origin := "https://fonts.example", pathname := "/teko.woff2",
                   search := "", hash := "" } }
        NetworkResult.rejected).respondWith = none :=
  ⟨(C21_only_same_origin_get_is_answered installedWorker _ NetworkResult.rejected).2
      (Or.inl (by decide)),
    ((C21_only_same_origin_get_is_answered installedWorker
        { method := "GET", mode := "no-cors",
          url := { origin := "https://fonts.example", pathname := "/teko.woff2",
                   search := "", hash := "" } }
        NetworkResult.rejected).2 (Or.inr (by decide))).1⟩

/-- C22: after the `activate` listener, no cache remains whose name starts with
'blaze-restaurant-cache-' and differs from `CACHE_NAME`; the cache named
`CACHE_NAME`, when it existed, and every cache whose name does not start with
that stem are still there with their content; nothing else is there, and
`CACHE_NAME` is unchanged. -/
theorem C22_activate_deletes_old_caches (w : ServiceWorker) (name : String) (cache : Cache) :
    (onActivate w).CACHE_NAME = w.CACHE_NAME ∧
      (startsWith name appCacheStem = true → name ≠ w.CACHE_NAME →
        name ∉ (onActivate w).caches.map Prod.fst) ∧
      (name = w.CACHE_NAME → (name, cache) ∈ w.caches →
        (name, cache) ∈ (onActivate w).caches) ∧
      (startsWith name appCacheStem = false → (name, cache) ∈ w.caches →
        (name, cache) ∈ (onActivate w).caches) ∧
      ((name, cache) ∈ (onActivate w).caches → (name, cache) ∈ w.caches) := by
  refine ⟨rfl, fun hs hn hmem => ?_, fun hn hmem => ?_, fun hs hmem => ?_, fun hmem => ?_⟩
  · obtain ⟨e, he, hname⟩ := List.mem_map.1 hmem
    simp only [onActivate, List.mem_filter] at he
    rw [hname] at he
    simp [hs, hn] at he
  · simp only [onActivate, List.mem_filter]
    exact ⟨hmem, by simp [hn]⟩
  · simp only [onActivate, List.mem_filter]
    exact ⟨hmem, by simp [hs]⟩
  · simp only [onActivate, List.mem_filter] at hmem
    exact hmem.1

/-- C22 at a worker holding the caches of versions 4.18, 4.19 and 4.20 (current)
and a cache of another application. -/
theorem C22_activate_deletes_old_caches_witness :
    (onActivate staleWorker).caches =
        [("other-app-cache", [("https://blaze.example/x", indexDocument)]),
         ("blaze-restaurant-cache-v4.20",
          [("https://blaze.example/index.html", indexDocument)])] ∧
      "blaze-restaurant-cache-v4.19" ∉ (onActivate staleWorker).caches.map Prod.fst :=
  ⟨by decide,
    (C22_activate_deletes_old_caches staleWorker "blaze-restaurant-cache-v4.19" []).2.1
      (by decide) (by decide)⟩

/-- C30: for a same-origin GET request that is not a navigation, whose query
contains `v=` and which has a persisted copy, a failed network fetch makes the
handler answer with `undefined`, not with the persisted copy; the cache
storage is unchanged. -/
theorem C30_versioned_request_offline_gets_undefined (w : ServiceWorker) (request : Request)
    (cached : Response)
    (hget : request.method = "GET") (horigin : request.url.origin = w.locationOrigin)
    (hmode : request.mode ≠ "navigate")
    (hversioned : (decide (request.url.search ≠ "") && includes request.url.search "v=") = true)
    (hcached : cachesMatch w.caches request.url.cacheKey = some cached) :
    (onFetch w request NetworkResult.rejected).respondWith = some none ∧
      (onFetch w request NetworkResult.rejected).respondWith ≠ some (some cached) ∧
      (onFetch w request NetworkResult.rejected).caches = w.caches := by
  rw [onFetch_runtime w request _ hget horigin hmode, hversioned, hcached]
  exact ⟨rfl, by simp, rfl⟩

/-- C30 at `styles.css?v=4.19`, persisted, with the network down. -/
theorem C30_versioned_request_offline_gets_undefined_witness :
    cachesMatch installedWorker.caches
        (getRequest "no-cors" "/styles.css" "?v=4.19").url.cacheKey =
        some { status := 200, headers := [("Content-Type", "text/css")], body := "old" } ∧
      (onFetch installedWorker (getRequest "no-cors" "/styles.css" "?v=4.19")
        NetworkResult.rejected).respondWith = some none :=
  ⟨by decide,
    (C30_versioned_request_offline_gets_undefined installedWorker
      (getRequest "no-cors" "/styles.css" "?v=4.19")
      { status := 200, headers := [("Content-Type", "text/css")], body := "old" }
      (by decide) (by decide) (by decide) (by decide) (by decide)).1⟩

/-- C23: the worker handles a `VERSION_UPDATE` message carrying version `v`, and
every fetch of `cache.addAll(CORE_ASSETS)` resolves with an `ok` response.
Afterwards `CACHE_NAME` is 'blaze-restaurant-cache-v' + `v`; it is the only
cache name starting with 'blaze-restaurant-cache-'; that cache holds, for
every core asset, the response fetched for it, and nothing else;
`skipWaiting` was called; and every client returned by
`self.clients.matchAll()` was sent one message
`{type: 'CACHE_UPDATED', version: v}`. -/
theorem C23_version_update_rebuilds_cache (cacheVersion : String) (w : ServiceWorker)
    (data : JSObject) (v : String) (network : String → Option Response)
    (clients : List String)
    (htype : data.getProp "type" = some "VERSION_UPDATE")
    (hversion : data.getProp "version" = some v)
    (hok : ∀ url ∈ CORE_ASSETS.map (resolveURL w),
      ∃ r, network url = some r ∧ r.ok = true) :
    (onMessage cacheVersion w (some data) network clients).worker.CACHE_NAME =
        "blaze-restaurant-cache-v" ++ v ∧
      (onMessage cacheVersion w (some data) network clients).CACHE_VERSION = v ∧
      ((onMessage cacheVersion w (some data) network clients).worker.caches.map
          Prod.fst).filter (fun n => startsWith n appCacheStem) =
        ["blaze-restaurant-cache-v" ++ v] ∧
      (∃ cache, ("blaze-restaurant-cache-v" ++ v, cache) ∈
          (onMessage cacheVersion w (some data) network clients).worker.caches ∧
        (∀ url ∈ CORE_ASSETS.map (resolveURL w),
          ∃ r, network url = some r ∧ cacheMatch cache url = some r) ∧
        (∀ e ∈ cache, e.1 ∈ CORE_ASSETS.map (resolveURL w))) ∧
      (onMessage cacheVersion w (some data) network clients).skipWaiting = true ∧
      (onMessage cacheVersion w (some data) network clients).posted =
        clients.map (fun client =>
          (client, [("type", "CACHE_UPDATED"), ("version", v)])) := by
  obtain ⟨entries, hadd⟩ := addAllFetch_isSome network _ hok
  obtain ⟨hkeys, hnet⟩ := addAllFetch_some network _ entries hadd
  obtain ⟨hmatch, hmem⟩ := foldl_cachePut_spec network entries hnet []
  have hres : ∀ a, resolveURL { w with CACHE_NAME := cacheNameOf v } a = resolveURL w a :=
    fun _ => rfl
  have hadd' : addAllFetch network
      (CORE_ASSETS.map (resolveURL { w with CACHE_NAME := cacheNameOf v })) = some entries := by
    have e : CORE_ASSETS.map (resolveURL { w with CACHE_NAME := cacheNameOf v }) =
        CORE_ASSETS.map (resolveURL w) := List.map_congr_left (fun a _ => hres a)
    rw [e]; exact hadd
  have hrun : onMessage cacheVersion w (some data) network clients =
      { CACHE_VERSION := v,
        worker :=
          { w with
            CACHE_NAME := cacheNameOf v,
            caches :=
              w.caches.filter (fun e => !(startsWith e.1 appCacheStem)) ++
                [(cacheNameOf v, entries.foldl (fun c e => cachePut c e.1 e.2) [])] },
        oldVersion := data.getProp "previousVersion",
        skipWaiting := true,
        posted := clients.map (fun client =>
          (client, [("type", "CACHE_UPDATED"), ("version", v)])) } := by
    simp only [onMessage, htype, hversion, if_true, Option.getD_some]
    rw [clearCachesAndRecache_success v { w with CACHE_NAME := cacheNameOf v } network clients
      entries (startsWith_cacheNameOf v) hadd']
  rw [hrun]
  refine ⟨rfl, rfl, ?_,
    ⟨entries.foldl (fun c e => cachePut c e.1 e.2) [], ?_, ?_, ?_⟩, rfl, rfl⟩
  · simp only [List.map_append, List.filter_append, List.map_cons, List.map_nil]
    have h1 : ((w.caches.filter (fun e => !(startsWith e.1 appCacheStem))).map
        Prod.fst).filter (fun n => startsWith n appCacheStem) = [] := by
      rw [List.filter_eq_nil_iff]
      intro n hn
      obtain ⟨e, he, hname⟩ := List.mem_map.1 hn
      rw [List.mem_filter] at he
      rw [← hname]
      simpa using he.2
    rw [h1]
    simp [List.filter_cons, startsWith_cacheNameOf v]
    rfl
  · simp only [List.mem_append, List.mem_singleton]
    exact Or.inr rfl
  · intro url hurl
    obtain ⟨r, hr, _⟩ := hok url hurl
    refine ⟨r, hr, ?_⟩
    rw [hmatch url (by rw [hkeys]; exact hurl), hr]
  · intro e he
    rcases hmem e he with h | h
    · simp at h
    · rw [← hkeys]
      exact List.mem_map_of_mem Prod.fst h

/-- C23 at the worker holding older caches, version 4.21, every core asset
being served, and two clients. -/
theorem C23_version_update_rebuilds_cache_witness :
    (onMessage "4.20" staleWorker
        (some [("type", "VERSION_UPDATE"), ("version", "4.21")]) onlineNetwork
        ["tab-1", "tab-2"]).worker.CACHE_NAME = "blaze-restaurant-cache-v" ++ "4.21" ∧
      (onMessage "4.20" staleWorker
        (some [("type", "VERSION_UPDATE"), ("version", "4.21")]) onlineNetwork
        ["tab-1", "tab-2"]).posted =
        [("tab-1", [("type", "CACHE_UPDATED"), ("version", "4.21")]),
         ("tab-2", [("type", "CACHE_UPDATED"), ("version", "4.21")])] :=
  ⟨(C23_version_update_rebuilds_cache "4.20" staleWorker
      [("type", "VERSION_UPDATE"), ("version", "4.21")] "4.21" onlineNetwork
      ["tab-1", "tab-2"] (by decide) (by decide)
      (fun url _ => ⟨_, rfl, rfl⟩)).1,
    by decide⟩

/-- C24: on a page whose stored token is "4.19", with an active controller,
`version.js` posts the object `{type: 'VERSION_UPDATE', version: '4.20'}`.  It
has no property `previousVersion`, and the `message` listener of the worker
reads `event.data.previousVersion` as `undefined`. -/
theorem C24_version_update_message_lacks_previous_version :
    (upgradedPage true).localStorage.getProp "blazeVersion" = some "4.19" ∧
      (versionScript (upgradedPage true)).posted =
        [[("type", "VERSION_UPDATE"), ("version", "4.20")]] ∧
      JSObject.keys [("type", "VERSION_UPDATE"), ("version", "4.20")] = ["type", "version"] ∧
      JSObject.getProp [("type", "VERSION_UPDATE"), ("version", "4.20")] "previousVersion" =
        none ∧
      (onMessage "4.19" installedWorker
        (some [("type", "VERSION_UPDATE"), ("version", "4.20")]) onlineNetwork
        []).oldVersion = none := by
  decide

/-- C25, as stated, fails: the stored token is the empty string, which differs
from `APP_VERSION`; `version.js` stores the new token and removes nothing.  And
on a page whose stored token is "4.19", the stored keys "length" and "key",
which `Object.keys` does not list, are still held after the run. -/
theorem C25_empty_token_and_shadowed_keys_are_kept :
    emptyTokenPage.localStorage.getProp "blazeVersion" = some "" ∧
      (versionScript emptyTokenPage).localStorage =
        [("blazeVersion", "4.20"), ("currentTheme", "dark")] ∧
      (versionScript emptyTokenPage).sessionStorage = [("scrollPos_home", "120")] ∧
      shadowedKeysPage.localStorage.getProp "blazeVersion" = some "4.19" ∧
      storageKeys shadowedKeysPage.localStorage = ["blazeVersion", "currentTheme"] ∧
      storageKeys shadowedKeysPage.sessionStorage = ["scrollPos_home"] ∧
      (versionScript shadowedKeysPage).localStorage =
        [("blazeVersion", "4.20"), ("length", "3")] ∧
      (versionScript shadowedKeysPage).sessionStorage = [("key", "k")] := by
  decide

/-- C25, amended: when a non-empty stored token exists and differs from
`APP_VERSION`, after `version.js` has run `localStorage` holds 'blazeVersion'
with value `APP_VERSION`, every other key it still holds is the name of a
property of `Storage.prototype` or `Object.prototype`, and so is every key that
`sessionStorage` still holds.  When the stores held no key of such a name
before, `localStorage` holds exactly the one key 'blazeVersion' and
`sessionStorage` is empty. -/
theorem C25_version_change_clears_listed_keys (s : PageStores) (t : String)
    (ht : s.localStorage.getProp "blazeVersion" = some t) (hne : t ≠ "")
    (hdiff : t ≠ APP_VERSION) :
    (versionScript s).localStorage.getProp "blazeVersion" = some APP_VERSION ∧
      (∀ key ∈ JSObject.keys (versionScript s).localStorage,
        key = "blazeVersion" ∨ key ∈ storagePrototypeNames) ∧
      (∀ key ∈ JSObject.keys (versionScript s).sessionStorage,
        key ∈ storagePrototypeNames) ∧
      ((∀ key ∈ JSObject.keys s.localStorage, key ∉ storagePrototypeNames) →
        (JSObject.keys s.localStorage).Nodup →
        (versionScript s).localStorage = [("blazeVersion", APP_VERSION)]) ∧
      ((∀ key ∈ JSObject.keys s.sessionStorage, key ∉ storagePrototypeNames) →
        (versionScript s).sessionStorage = []) := by
  rw [versionScript_changed s t ht hne hdiff]
  refine ⟨?_, ?_, ?_, ?_, ?_⟩
  · have h := JSObject.getProp_filter (s.localStorage.setProp "blazeVersion" APP_VERSION)
      (fun k => decide (k = "blazeVersion" ∨ k ∈ storagePrototypeNames)) "blazeVersion"
    simp only [true_or, decide_True, if_true] at h
    exact h.trans (JSObject.getProp_setProp_self _ _ _)
  · intro key hkey
    simp only [JSObject.keys, List.mem_map] at hkey
    obtain ⟨p, hp, rfl⟩ := hkey
    simpa using (List.mem_filter.1 hp).2
  · intro key hkey
    simp only [JSObject.keys, List.mem_map] at hkey
    obtain ⟨p, hp, rfl⟩ := hkey
    simpa using (List.mem_filter.1 hp).2
  · intro hl hd
    have e : (s.localStorage.setProp "blazeVersion" APP_VERSION).filter
          (fun p => decide (p.1 = "blazeVersion" ∨ p.1 ∈ storagePrototypeNames)) =
        (s.localStorage.setProp "blazeVersion" APP_VERSION).filter
          (fun p => decide (p.1 = "blazeVersion")) := by
      apply List.filter_congr
      intro p hp
      have hmem : p.1 ∈ JSObject.keys (s.localStorage.setProp "blazeVersion" APP_VERSION) :=
        List.mem_map_of_mem Prod.fst hp
      rcases (JSObject.mem_keys_setProp _ _ _ _).1 hmem with e | e
      · simp [e]
      · simp [hl _ e]
    simp only [e]
    exact filter_key_eq_of_nodup _ _ _
      (JSObject.nodup_keys_setProp _ _ _ hd) (JSObject.getProp_setProp_self _ _ _)
  · intro hs
    simp only [List.filter_eq_nil_iff]
    intro p hp
    have := hs p.1 (List.mem_map_of_mem Prod.fst hp)
    simpa using this

/-- C25 amended, at the page last loaded under version 4.19. -/
theorem C25_version_change_clears_listed_keys_witness :
    (versionScript (upgradedPage true)).localStorage.getProp "blazeVersion" =
        some APP_VERSION ∧
      (versionScript (upgradedPage true)).localStorage = [("blazeVersion", APP_VERSION)] ∧
      (versionScript (upgradedPage true)).sessionStorage = [] :=
  ⟨(C25_version_change_clears_listed_keys (upgradedPage true) "4.19" (by decide) (by decide)
      (by decide)).1,
    (C25_version_change_clears_listed_keys (upgradedPage true) "4.19" (by decide) (by decide)
      (by decide)).2.2.2.1 (by decide) (by decide),
    (C25_version_change_clears_listed_keys (upgradedPage true) "4.19" (by decide) (by decide)
      (by decide)).2.2.2.2 (by decide)⟩

/-- C26, as stated, fails: the stored token is the empty string, which differs
from `APP_VERSION`, and a controller is active, yet no message is posted. -/
theorem C26_empty_token_posts_nothing :
    emptyTokenPage.localStorage.getProp "blazeVersion" = some "" ∧
      emptyTokenPage.controller = true ∧
      (versionScript emptyTokenPage).posted = [] := by
  decide

/-- C26, amended: in a run of `version.js` in which a non-empty stored token
differs from `APP_VERSION` and a controller is active, exactly one message,
`{type: 'VERSION_UPDATE', version: APP_VERSION}`, is posted; in every other
run (no stored token, empty token, token unchanged, or no active controller)
no message is posted. -/
theorem C26_one_message_per_version_change (s : PageStores) :
    (∀ t, s.localStorage.getProp "blazeVersion" = some t → t ≠ "" → t ≠ APP_VERSION →
        s.controller = true →
        (versionScript s).posted = [[("type", "VERSION_UPDATE"), ("version", APP_VERSION)]]) ∧
      (s.localStorage.getProp "blazeVersion" = none → (versionScript s).posted = []) ∧
      (s.localStorage.getProp "blazeVersion" = some "" → (versionScript s).posted = []) ∧
      (s.localStorage.getProp "blazeVersion" = some APP_VERSION →
        (versionScript s).posted = []) ∧
      (s.controller = false → (versionScript s).posted = []) := by
  refine ⟨fun t ht hne hdiff hc => ?_, fun h => ?_, fun h => ?_, fun h => ?_, fun hc => ?_⟩
  · rw [versionScript_changed s t ht hne hdiff]
    simp [hc]
  · rw [versionScript_first_run s (by rw [h]; rfl)]
  · rw [versionScript_first_run s (by rw [h]; rfl)]
  · rw [versionScript_unchanged s h]
  · cases hg : s.localStorage.getProp "blazeVersion" with
    | none => rw [versionScript_first_run s (by rw [hg]; rfl)]
    | some t =>
      by_cases hne : t = ""
      · rw [versionScript_first_run s (by rw [hg, hne]; rfl)]
      · by_cases hdiff : t = APP_VERSION
        · rw [versionScript_unchanged s (by rw [hg, hdiff])]
        · rw [versionScript_changed s t hg hne hdiff]
          simp [hc]

/-- C26 amended, at the page last loaded under version 4.19, with and without an
active controller. -/
theorem C26_one_message_per_version_change_witness :
    (versionScript (upgradedPage true)).posted =
        [[("type", "VERSION_UPDATE"), ("version", APP_VERSION)]] ∧
      (versionScript (upgradedPage false)).posted = [] :=
  ⟨(C26_one_message_per_version_change (upgradedPage true)).1 "4.19" (by decide) (by decide)
      (by decide) (by decide),
    (C26_one_message_per_version_change (upgradedPage false)).2.2.2.2 (by decide)⟩

/-- C27: when no token is stored or the stored token equals `APP_VERSION`,
`version.js` leaves every `localStorage` key other than 'blazeVersion' and all
of `sessionStorage` as they were, posts no message, and afterwards
'blazeVersion' holds `APP_VERSION`. -/
theorem C27_first_run_or_same_version_invalidates_nothing (s : PageStores)
    (h : s.localStorage.getProp "blazeVersion" = none ∨
      s.localStorage.getProp "blazeVersion" = some APP_VERSION) :
    (∀ key, key ≠ "blazeVersion" →
        (versionScript s).localStorage.getProp key = s.localStorage.getProp key) ∧
      (versionScript s).sessionStorage = s.sessionStorage ∧
      (versionScript s).posted = [] ∧
      (versionScript s).localStorage.getProp "blazeVersion" = some APP_VERSION := by
  rcases h with h | h
  · rw [versionScript_first_run s (by rw [h]; rfl)]
    exact ⟨fun key hkey => JSObject.getProp_setProp_of_ne _ _ _ _ hkey, rfl, rfl,
      JSObject.getProp_setProp_self _ _ _⟩
  · rw [versionScript_unchanged s h]
    exact ⟨fun _ _ => rfl, rfl, rfl, h⟩

/-- C27 at a first run with a saved scroll position and at a run under the
unchanged version 4.20. -/
theorem C27_first_run_or_same_version_invalidates_nothing_witness :
    (versionScript
        { localStorage := [("currentTheme", "dark")],
          sessionStorage := [("scrollPos_home", "120")], controller := true }).sessionStorage =
        [("scrollPos_home", "120")] ∧
      (versionScript
        { localStorage := [("blazeVersion", "4.20"), ("currentTheme", "dark")],
          sessionStorage := [], controller := true }).posted = [] :=
  ⟨(C27_first_run_or_same_version_invalidates_nothing
      { localStorage := [("currentTheme", "dark")],
        sessionStorage := [("scrollPos_home", "120")], controller := true }
      (Or.inl (by decide))).2.1,
    (C27_first_run_or_same_version_invalidates_nothing
      { localStorage := [("blazeVersion", "4.20"), ("currentTheme", "dark")],
        sessionStorage := [], controller := true }
      (Or.inr (by decide))).2.2.1⟩

/-- C28: for the hash `#constructor`, which is none of the eleven categories,
nor "menu", nor "about", `preloadAssets` preloads the two common assets, then
the value `menuAssets['constructor']` inherited from `Object.prototype`, then
the asset of the first category; the specification prescribes the common
assets only.  For `#wraps`, `#gourmet-burgers`, `#indian`, `#menu`, `#about`
and `#contact` the list is the prescribed one. -/
theorem C28_inherited_name_preloads_more :
    preloadAssets "#constructor" =
        [PreloadSrc.src "assets/Blaze PNG 3.svg", PreloadSrc.src "assets/Get D.svg",
         PreloadSrc.inherited "constructor",
         PreloadSrc.src "assets/menu/GOURMET BURGERS.svg"] ∧
      specAssetsToPreload (requestedHash "#constructor") =
        [PreloadSrc.src "assets/Blaze PNG 3.svg", PreloadSrc.src "assets/Get D.svg"] ∧
      preloadAssets "#wraps" =
        [PreloadSrc.src "assets/Blaze PNG 3.svg", PreloadSrc.src "assets/Get D.svg",
         PreloadSrc.src "assets/menu/WRAPS.svg",
         PreloadSrc.src "assets/menu/GOURMET BURGERS.svg",
         PreloadSrc.src "assets/menu/SIDES.svg"] ∧
      preloadAssets "#gourmet-burgers" =
        [PreloadSrc.src "assets/Blaze PNG 3.svg", PreloadSrc.src "assets/Get D.svg",
         PreloadSrc.src "assets/menu/GOURMET BURGERS.svg",
         PreloadSrc.src "assets/menu/WRAPS.svg"] ∧
      preloadAssets "#indian" =
        [PreloadSrc.src "assets/Blaze PNG 3.svg", PreloadSrc.src "assets/Get D.svg",
         PreloadSrc.src "assets/menu/INDIAN.svg",
         PreloadSrc.src "assets/menu/DESSERTS.svg"] ∧
      preloadAssets "#menu" =
        [PreloadSrc.src "assets/Blaze PNG 3.svg", PreloadSrc.src "assets/Get D.svg",
         PreloadSrc.src "assets/menu/GOURMET BURGERS.svg",
         PreloadSrc.src "assets/menu/WRAPS.svg",
         PreloadSrc.src "assets/menu/SIDES.svg"] ∧
      preloadAssets "#about" =
        [PreloadSrc.src "assets/Blaze PNG 3.svg", PreloadSrc.src "assets/Get D.svg",
         PreloadSrc.src "assets/About.svg"] ∧
      preloadAssets "#contact" =
        [PreloadSrc.src "assets/Blaze PNG 3.svg", PreloadSrc.src "assets/Get D.svg"] := by
  decide

/-- C29: the three lists differ from each other and from the tokens that
`isMenuPage` accepts.  "main-course" is accepted by `isMenuPage` and is
missing from `menuCategories` of ajax-navigation.js; "indian" is accepted and
is missing from `menuCategories` of menu-transitions.js and from
`menuSections`; "desserts" is accepted and is missing from `menuSections`. -/
theorem C29_category_lists_disagree :
    isMenuPage "main-course" = true ∧
      "main-course" ∉ ajaxNavigation_menuCategories ∧
      "main-course" ∈ menuTransitions_menuCategories ∧
      "main-course" ∈ dissolveAnimation_menuSections ∧
      isMenuPage "indian" = true ∧
      "indian" ∈ ajaxNavigation_menuCategories ∧
      "indian" ∉ menuTransitions_menuCategories ∧
      "indian" ∉ dissolveAnimation_menuSections ∧
      isMenuPage "desserts" = true ∧
      "desserts" ∉ dissolveAnimation_menuSections ∧
      (∀ token ∈ ajaxNavigation_menuCategories, isMenuPage token = true) ∧
      (∀ token ∈ menuTransitions_menuCategories, isMenuPage token = true) ∧
      (∀ token ∈ dissolveAnimation_menuSections, isMenuPage token = true) := by
  decide

end Blaze
